import Mathlib

/-!
Verification development for the emCore embedded runtime.

Shallow embedding of the components referenced by the checked claims:
byte ring (protocol/byte_ring.hpp), Fletcher-16 (protocol/fletcher16.hpp),
packet parser (protocol/packet_parser.hpp), message broker and task
mailboxes (messaging/message_broker.hpp), QoS publisher/subscriber
(messaging/qos_pubsub.hpp) and the cooperative scheduler
(task/taskmaster.hpp).  Machine integers are modelled as Nat with explicit
reduction modulo 2^w where wrap-around is observable (u16 sequence
counters, u32 statistics counters).
-/

namespace EmCore

/-! ## Error codes (error/result.hpp) -/

inductive ErrorCode where
  | success
  | invalid_parameter
  | out_of_memory
  | timeout
  | not_found
  | already_exists
  | not_initialized
  | hardware_error
  deriving DecidableEq, Repr

/-! ## Byte ring (protocol/byte_ring.hpp)

`buf_` is a function index → byte; `head_`/`tail_` are the producer and
consumer indices.  `Capacity` is the template parameter (static_assert > 0).
-/

structure ByteRing where
  cap : Nat
  buf : Nat → Nat
  head : Nat
  tail : Nat

namespace ByteRing

/-- next_index(i) = (i + 1) % Capacity -/
def next_index (r : ByteRing) (i : Nat) : Nat := (i + 1) % r.cap

/-- Fresh ring (all indices zero, buffer zero-initialised). -/
def init (cap : Nat) : ByteRing := ⟨cap, fun _ => 0, 0, 0⟩

/-- push: returns none (false) when full, otherwise the updated ring. -/
def push (r : ByteRing) (b : Nat) : Option ByteRing :=
  if r.next_index r.head = r.tail then none
  else some { r with buf := fun i => if i = r.head then b else r.buf i,
                     head := r.next_index r.head }

/-- pop: returns none (false) when empty, otherwise (byte, updated ring). -/
def pop (r : ByteRing) : Option (Nat × ByteRing) :=
  if r.head = r.tail then none
  else some (r.buf r.tail, { r with tail := r.next_index r.tail })

def empty (r : ByteRing) : Bool := r.head = r.tail

def full (r : ByteRing) : Bool := r.next_index r.head = r.tail

/-- size(): head >= tail ? head - tail : Capacity - (tail - head) -/
def size (r : ByteRing) : Nat :=
  if r.head ≥ r.tail then r.head - r.tail else r.cap - (r.tail - r.head)

/-- One push or pop operation applied to a ring (failed operations leave it
unchanged, exactly as the C++ returns false without mutation). -/
inductive Op where
  | push (b : Nat)
  | pop
  deriving Repr

def applyOp (r : ByteRing) : Op → ByteRing
  | Op.push b => (r.push b).getD r
  | Op.pop => match r.pop with
    | some (_, r2) => r2
    | none => r

def applyOps (r : ByteRing) (ops : List Op) : ByteRing :=
  ops.foldl applyOp r

end ByteRing

/-! ## Fletcher-16 (protocol/fletcher16.hpp) -/

/-- Streaming accumulator state (fletcher16_accum). -/
structure Fletcher16Accum where
  sum1 : Nat
  sum2 : Nat
  deriving DecidableEq, Repr

namespace Fletcher16Accum

def reset : Fletcher16Accum := ⟨0, 0⟩

/-- add(b): sum1 = (sum1 + b) % 255; sum2 = (sum2 + sum1) % 255 -/
def add (a : Fletcher16Accum) (b : Nat) : Fletcher16Accum :=
  let s1 := (a.sum1 + b) % 255
  ⟨s1, (a.sum2 + s1) % 255⟩

/-- value(): (sum2 << 8) | sum1; both sums are < 255 so this is
sum2 * 256 + sum1. -/
def value (a : Fletcher16Accum) : Nat := a.sum2 * 256 + a.sum1

def addAll (a : Fletcher16Accum) (l : List Nat) : Fletcher16Accum :=
  l.foldl add a

end Fletcher16Accum

/-- One-shot fletcher16(data, len). -/
def fletcher16 (l : List Nat) : Nat :=
  (Fletcher16Accum.reset.addAll l).value

/-! ## Packet parser (protocol/packet_parser.hpp)

The parser is templated over MaxPayload, SyncLen, Length16Bit and the
sync pattern; these become a `ParserConfig`.  `pkt_.data` is a fixed
array whose valid bytes are `[0..length)`; the model keeps exactly the
bytes written since `data_index_` was last set to zero, as a list. -/

inductive ParserError where
  | none
  | boundary_error
  | length_overflow
  | checksum_mismatch
  deriving DecidableEq, Repr

inductive PacketRxState where
  | SYNC
  | OP_CODE
  | DATA_LENGTH
  | DATA
  | CHECKSUM
  | PACKET_STATE_END
  deriving DecidableEq, Repr

structure ParserConfig where
  maxPayload : Nat
  sync : List Nat
  len16 : Bool

structure Packet where
  opcode : Nat
  length : Nat
  data : List Nat
  checksum_rx : Nat
  deriving DecidableEq, Repr

structure Parser where
  state : PacketRxState
  error : ParserError
  packet_ready : Bool
  data_index : Nat
  len_bytes_read : Nat
  chksum_bytes_read : Nat
  sync_index : Nat
  acc : Fletcher16Accum
  opcode : Nat
  length : Nat
  data : List Nat
  checksum_rx : Nat
  deriving DecidableEq, Repr

namespace Parser

/-- reset(): exactly the fields the C++ reset() clears
(len_bytes_read_ / chksum_bytes_read_ and the opcode are not touched;
clearing data_index_ empties the valid payload prefix). -/
def reset (p : Parser) : Parser :=
  { p with state := .SYNC, sync_index := 0, length := 0, data_index := 0,
           checksum_rx := 0, acc := Fletcher16Accum.reset,
           error := .none, packet_ready := false, data := [] }

/-- A freshly constructed parser (all members value-initialised). -/
def init : Parser :=
  ⟨.SYNC, .none, false, 0, 0, 0, 0, Fletcher16Accum.reset, 0, 0, [], 0⟩

/-- on_sync: partial-overlap sync matching. -/
def on_sync (cfg : ParserConfig) (p : Parser) (b : Nat) : Parser × Bool :=
  if b = cfg.sync.getD p.sync_index 0 then
    if p.sync_index + 1 = cfg.sync.length then
      ({ p with state := .OP_CODE, acc := Fletcher16Accum.reset, sync_index := 0 }, false)
    else
      ({ p with sync_index := p.sync_index + 1 }, false)
  else
    ({ p with sync_index := if b = cfg.sync.getD 0 0 then 1 else 0 }, false)

def on_opcode (p : Parser) (b : Nat) : Parser × Bool :=
  ({ p with opcode := b, acc := p.acc.add b, state := .DATA_LENGTH,
            len_bytes_read := 0, length := 0 }, false)

/-- on_length: 1- or 2-byte big-endian length; `length |= b` on a value
whose low byte is zero equals addition for byte input. -/
def on_length (cfg : ParserConfig) (p : Parser) (b : Nat) : Parser × Bool :=
  if cfg.len16 then
    if p.len_bytes_read = 0 then
      ({ p with length := b * 256, acc := p.acc.add b, len_bytes_read := 1 }, false)
    else
      let len := p.length + b
      let p1 := { p with length := len, acc := p.acc.add b }
      if len > cfg.maxPayload then
        ({ p1.reset with error := .length_overflow }, false)
      else if len = 0 then
        ({ p1 with state := .CHECKSUM, chksum_bytes_read := 0 }, false)
      else
        ({ p1 with state := .DATA, data_index := 0, data := [] }, false)
  else
    let p1 := { p with length := b, acc := p.acc.add b }
    if b > cfg.maxPayload then
      ({ p1.reset with error := .length_overflow }, false)
    else if b = 0 then
      ({ p1 with state := .CHECKSUM, chksum_bytes_read := 0 }, false)
    else
      ({ p1 with state := .DATA, data_index := 0, data := [] }, false)

def on_data (p : Parser) (b : Nat) : Parser × Bool :=
  let p1 := { p with data := p.data ++ [b], acc := p.acc.add b,
                     data_index := p.data_index + 1 }
  if p.data_index + 1 ≥ p.length then
    ({ p1 with state := .CHECKSUM, chksum_bytes_read := 0 }, false)
  else
    (p1, false)

def on_checksum (p : Parser) (b : Nat) : Parser × Bool :=
  if p.chksum_bytes_read = 0 then
    ({ p with checksum_rx := b * 256, chksum_bytes_read := 1 }, false)
  else
    let rx := p.checksum_rx + b
    if p.acc.value = rx then
      ({ p with checksum_rx := rx, packet_ready := true, state := .SYNC,
                acc := Fletcher16Accum.reset, data_index := 0, error := .none }, true)
    else
      ({ { p with checksum_rx := rx }.reset with error := .checksum_mismatch }, false)

/-- decode(byte): boundary check, then table dispatch on the state. -/
def decode (cfg : ParserConfig) (p : Parser) (b : Nat) : Parser × Bool :=
  match p.state with
  | .SYNC => on_sync cfg p b
  | .OP_CODE => on_opcode p b
  | .DATA_LENGTH => on_length cfg p b
  | .DATA => on_data p b
  | .CHECKSUM => on_checksum p b
  | .PACKET_STATE_END => ({ p.reset with error := .boundary_error }, false)

/-- Feed a byte sequence, keeping only the final parser state. -/
def feed (cfg : ParserConfig) (p : Parser) (bytes : List Nat) : Parser :=
  bytes.foldl (fun q b => (decode cfg q b).1) p

def has_packet (p : Parser) : Bool := p.packet_ready

/-- get_packet: copies the packet out and clears the ready flag. -/
def get_packet (p : Parser) : Option (Packet × Parser) :=
  if p.packet_ready then
    some (⟨p.opcode, p.length, p.data, p.checksum_rx⟩, { p with packet_ready := false })
  else
    none

end Parser

/-- Wire length field: 1 byte, or 2 bytes big-endian. -/
def lenBytes (len16 : Bool) (len : Nat) : List Nat :=
  if len16 then [len / 256, len % 256] else [len]

/-- A complete frame: SYNC | opcode | length | payload | Fletcher-16 BE. -/
def frame (cfg : ParserConfig) (op : Nat) (payload : List Nat) : List Nat :=
  let body := op :: (lenBytes cfg.len16 payload.length ++ payload)
  cfg.sync ++ body ++ [fletcher16 body / 256, fletcher16 body % 256]

/-- The checksummed portion of a frame: opcode | length bytes | payload. -/
def frameBody (cfg : ParserConfig) (op : Nat) (payload : List Nat) : List Nat :=
  op :: (lenBytes cfg.len16 payload.length ++ payload)

/-- Result of feeding a fresh parser a whole frame: the parser state and
decode() return value at the final (checksum low) byte. -/
def frameFinal (cfg : ParserConfig) (op : Nat) (payload : List Nat) : Parser × Bool :=
  Parser.decode cfg
    (Parser.feed cfg Parser.init
      (cfg.sync ++ [op] ++ lenBytes cfg.len16 payload.length ++ payload ++
        [fletcher16 (frameBody cfg op payload) / 256]))
    (fletcher16 (frameBody cfg op payload) % 256)

/-- Well-formedness of a ring state: positive capacity, indices in range. -/
def ByteRing.Inv (r : ByteRing) : Prop :=
  1 ≤ r.cap ∧ r.head < r.cap ∧ r.tail < r.cap

/-! ## Message types (messaging/message_types.hpp)

message_priority: low = 0, normal = 1, high = 2, critical = 3.
message_flags bits: requires_ack 0x01, broadcast 0x02, urgent 0x04,
persistent 0x08.  The payload buffer is abstracted to an opaque tag. -/

def invalid_task_id : Nat := 0xFFFF

structure message_header where
  type_ : Nat
  sender_id : Nat
  receiver_id : Nat
  priority : Nat
  flags : Nat
  timestamp : Nat
  payload_size : Nat
  sequence_number : Nat
  deriving DecidableEq, Repr

structure message where
  header : message_header
  payload : Nat
  deriving DecidableEq, Repr

structure message_ack where
  sequence_number : Nat
  sender_id : Nat
  success : Bool
  error_code : Nat
  deriving DecidableEq, Repr

/-- (flags & urgent) == urgent || header.priority >= message_priority::high -/
def msg_is_urgent (m : message) : Bool :=
  (Nat.land m.header.flags 4 = 4) || (2 ≤ m.header.priority)

/-- (flags & persistent) == persistent -/
def msg_is_persistent (m : message) : Bool :=
  Nat.land m.header.flags 8 = 8

/-- has_flag(flags, requires_ack) -/
def msg_requires_ack (m : message) : Bool :=
  Nat.land m.header.flags 1 = 1

/-! ## Message broker (messaging/message_broker.hpp)

The compile-time capacities (high_capacity / normal_capacity per topic
sub-queue and topic_slots per mailbox) become a `mailbox_config`.
Sub-queues are ETL circular buffers, pushed at the back and popped at the
front; every push in the source is guarded by a full() check, so lists
with explicit capacity checks model them exactly. -/

structure mailbox_config where
  topic_slots : Nat
  high_capacity : Nat
  normal_capacity : Nat
  deriving Repr

structure topic_queue_entry where
  topic_id : Nat
  high_queue : List message
  normal_queue : List message
  deriving DecidableEq, Repr

structure task_mailbox where
  task_id : Nat
  has_handle : Bool
  depth_limit : Nat
  dropped_overflow : Nat
  received_count : Nat
  overflow_drop_oldest : Bool
  notify_on_empty_only : Bool
  topic_queues : List topic_queue_entry
  deriving DecidableEq, Repr

namespace task_mailbox

def total_size (mb : task_mailbox) : Nat :=
  (mb.topic_queues.map
    (fun tq => tq.high_queue.length + tq.normal_queue.length)).sum

def is_empty_unlocked (mb : task_mailbox) : Bool :=
  mb.topic_queues.all (fun tq => tq.high_queue.isEmpty && tq.normal_queue.isEmpty)

def find_topic_index (mb : task_mailbox) (topic_id : Nat) : Option Nat :=
  mb.topic_queues.findIdx? (fun tq => tq.topic_id = topic_id)

/-- get_or_create_topic: index of the (possibly new) slot plus the updated
mailbox; none when the slot table is full. -/
def get_or_create_topic (cfg : mailbox_config) (mb : task_mailbox) (topic_id : Nat) :
    Option (Nat × task_mailbox) :=
  match mb.find_topic_index topic_id with
  | some i => some (i, mb)
  | none =>
    if cfg.topic_slots ≤ mb.topic_queues.length then none
    else some (mb.topic_queues.length,
      { mb with topic_queues := mb.topic_queues ++ [⟨topic_id, [], []⟩] })

end task_mailbox

/-- Pop the front of the first non-empty high sub-queue in slot order. -/
def popFirstHigh : List topic_queue_entry → Option (message × List topic_queue_entry)
  | [] => none
  | e :: rest =>
    match e.high_queue with
    | [] => (popFirstHigh rest).map (fun x => (x.1, e :: x.2))
    | m :: tl => some (m, { e with high_queue := tl } :: rest)

/-- Pop the front of the first non-empty normal sub-queue in slot order. -/
def popFirstNormal : List topic_queue_entry → Option (message × List topic_queue_entry)
  | [] => none
  | e :: rest =>
    match e.normal_queue with
    | [] => (popFirstNormal rest).map (fun x => (x.1, e :: x.2))
    | m :: tl => some (m, { e with normal_queue := tl } :: rest)

namespace task_mailbox

/-- drop_one_any: drop one message, preferring normal queues across topics,
then high queues. -/
def drop_one_any (mb : task_mailbox) : Option task_mailbox :=
  match popFirstNormal mb.topic_queues with
  | some (_, tqs) => some { mb with topic_queues := tqs }
  | none =>
    match popFirstHigh mb.topic_queues with
    | some (_, tqs) => some { mb with topic_queues := tqs }
    | none => none

def default_entry : topic_queue_entry := ⟨0xFFFF, [], []⟩

/-- The push phase of send(): preferred sub-queue, spill to the other,
else out_of_memory; on success compute should_notify. -/
def send_push (cfg : mailbox_config) (mb : task_mailbox) (idx : Nat) (msg : message)
    (is_urgent was_empty : Bool) : (Except ErrorCode Bool) × task_mailbox :=
  let tq := mb.topic_queues.getD idx default_entry
  let notify : Bool := if mb.notify_on_empty_only then was_empty else true
  if is_urgent then
    if tq.high_queue.length < cfg.high_capacity then
      (Except.ok notify,
        { mb with
          topic_queues :=
            mb.topic_queues.set idx { tq with high_queue := tq.high_queue ++ [msg] } })
    else if tq.normal_queue.length < cfg.normal_capacity then
      (Except.ok notify,
        { mb with
          topic_queues :=
            mb.topic_queues.set idx { tq with normal_queue := tq.normal_queue ++ [msg] } })
    else
      (Except.error ErrorCode.out_of_memory, mb)
  else
    if tq.normal_queue.length < cfg.normal_capacity then
      (Except.ok notify,
        { mb with
          topic_queues :=
            mb.topic_queues.set idx { tq with normal_queue := tq.normal_queue ++ [msg] } })
    else if tq.high_queue.length < cfg.high_capacity then
      (Except.ok notify,
        { mb with
          topic_queues :=
            mb.topic_queues.set idx { tq with high_queue := tq.high_queue ++ [msg] } })
    else
      (Except.error ErrorCode.out_of_memory, mb)

/-- send(): urgency routing, overflow policy, push with spill, notify
decision.  Returns the result (ok carries should_notify) and the mailbox. -/
def send (cfg : mailbox_config) (mb : task_mailbox) (msg : message) :
    (Except ErrorCode Bool) × task_mailbox :=
  let is_urgent := msg_is_urgent msg
  let was_empty := mb.is_empty_unlocked
  let depth_reached := mb.depth_limit ≤ mb.total_size
  match mb.get_or_create_topic cfg msg.header.type_ with
  | none => (Except.error ErrorCode.out_of_memory, mb)
  | some (idx, mb1) =>
    let tq := mb1.topic_queues.getD idx default_entry
    let target_full : Bool :=
      if is_urgent then cfg.high_capacity ≤ tq.high_queue.length
      else cfg.normal_capacity ≤ tq.normal_queue.length
    if target_full || depth_reached then
      if ¬msg_is_persistent msg ∧ mb1.overflow_drop_oldest then
        match mb1.drop_one_any with
        | some mb2 =>
          send_push cfg
            { mb2 with dropped_overflow := (mb2.dropped_overflow + 1) % 4294967296 }
            idx msg is_urgent was_empty
        | none => (Except.error ErrorCode.out_of_memory, mb1)
      else (Except.error ErrorCode.out_of_memory, mb1)
    else send_push cfg mb1 idx msg is_urgent was_empty

/-- receive(): drain high sub-queues across slots in registration order,
then normal sub-queues. -/
def receive (mb : task_mailbox) : (Except ErrorCode message) × task_mailbox :=
  if mb.is_empty_unlocked then (Except.error ErrorCode.not_found, mb)
  else
    match popFirstHigh mb.topic_queues with
    | some (m, tqs) =>
      (Except.ok m,
        { mb with
          topic_queues := tqs
          received_count := (mb.received_count + 1) % 4294967296 })
    | none =>
      match popFirstNormal mb.topic_queues with
      | some (m, tqs) =>
        (Except.ok m,
          { mb with
            topic_queues := tqs
            received_count := (mb.received_count + 1) % 4294967296 })
      | none => (Except.error ErrorCode.not_found, mb)

end task_mailbox

structure topic_subscription where
  topic_id : Nat
  capacity_limit : Nat
  subscriber_ids : List Nat
  deriving DecidableEq, Repr

structure message_broker where
  mailboxes : List task_mailbox
  topics : List topic_subscription
  sent_count : Nat
  received_count : Nat
  dropped_count : Nat
  sequence_ctr : Nat
  notify_on_empty_only : Bool
  deriving DecidableEq, Repr

def default_mailbox : task_mailbox := ⟨invalid_task_id, false, 0, 0, 0, true, true, []⟩

/-- find_mailbox: O(1) direct index plus owner check. -/
def find_mailbox_idx (mbs : List task_mailbox) (task_id : Nat) : Option Nat :=
  if task_id < mbs.length then
    if (mbs.getD task_id default_mailbox).task_id = task_id then some task_id else none
  else none

/-- etl::lower_bound on the sorted topic vector: first entry not below. -/
def lower_bound_topic : List topic_subscription → Nat → Option topic_subscription
  | [], _ => none
  | t :: rest, tid => if t.topic_id < tid then lower_bound_topic rest tid else some t

def find_topic (topics : List topic_subscription) (topic_id : Nat) :
    Option topic_subscription :=
  match lower_bound_topic topics topic_id with
  | some t => if t.topic_id = topic_id then some t else none
  | none => none

/-- The per-subscriber delivery loop of publish(): send to each subscriber
mailbox, counting successes and failures. -/
def deliver (cfg : mailbox_config) :
    List Nat → List task_mailbox → Nat → Nat → Bool → message →
    List task_mailbox × Nat × Nat × Bool
  | [], mbs, s, d, any, _ => (mbs, s, d, any)
  | sub :: rest, mbs, s, d, any, msg =>
    match find_mailbox_idx mbs sub with
    | none => deliver cfg rest mbs s d any msg
    | some i =>
      let r := (mbs.getD i default_mailbox).send cfg msg
      match r.1 with
      | Except.ok _ =>
        deliver cfg rest (mbs.set i r.2) ((s + 1) % 4294967296) d true msg
      | Except.error _ =>
        deliver cfg rest (mbs.set i r.2) s ((d + 1) % 4294967296) any msg

namespace message_broker

/-- The header-stamping prefix of publish(): set sender_id, fill timestamp
when zero, assign a sequence from the broker counter when the caller left
sequence_number zero (post-increment of the counter, mod 2^16), and force
type_ to the topic.  Returns the (possibly advanced) broker and the message
every mailbox send will receive. -/
def stamp (now : Nat) (br : message_broker) (topic_id : Nat) (msg : message)
    (from_task : Nat) : message_broker × message :=
  let h0 := { msg.header with sender_id := from_task }
  let h1 := if h0.timestamp = 0 then { h0 with timestamp := now } else h0
  let h2 := if h1.sequence_number = 0 then
              { h1 with sequence_number := br.sequence_ctr } else h1
  let br1 := if h1.sequence_number = 0 then
              { br with sequence_ctr := (br.sequence_ctr + 1) % 65536 } else br
  (br1, { header := { h2 with type_ := topic_id }, payload := msg.payload })

/-- publish(): stamp sender/timestamp/sequence/type, then fan out to the
subscribers of the topic.  Returns the result, the new broker state, and
the stamped message (the value every mailbox send received). -/
def publish (cfg : mailbox_config) (now : Nat) (br : message_broker)
    (topic_id : Nat) (msg : message) (from_task : Nat) :
    (Except ErrorCode Unit) × message_broker × message :=
  let br1 := (stamp now br topic_id msg from_task).1
  let msg1 := (stamp now br topic_id msg from_task).2
  match find_topic br1.topics topic_id with
  | none => (Except.error ErrorCode.not_found, br1, msg1)
  | some topic =>
    if topic.subscriber_ids.isEmpty then (Except.error ErrorCode.not_found, br1, msg1)
    else
      let r := deliver cfg topic.subscriber_ids br1.mailboxes
                 br1.sent_count br1.dropped_count false msg1
      let br2 :=
        { br1 with
          mailboxes := r.1
          sent_count := r.2.1
          dropped_count := r.2.2.1 }
      if r.2.2.2 then (Except.ok (), br2, msg1)
      else (Except.error ErrorCode.out_of_memory, br2, msg1)

/-- try_receive(): find the mailbox, drain one message. -/
def try_receive (br : message_broker) (task_id : Nat) :
    (Except ErrorCode message) × message_broker :=
  match find_mailbox_idx br.mailboxes task_id with
  | none => (Except.error ErrorCode.not_found, br)
  | some i =>
    let r := (br.mailboxes.getD i default_mailbox).receive
    match r.1 with
    | Except.ok m =>
      (Except.ok m,
        { br with
          mailboxes := br.mailboxes.set i r.2
          received_count := (br.received_count + 1) % 4294967296 })
    | Except.error _ =>
      (Except.error ErrorCode.not_found, { br with mailboxes := br.mailboxes.set i r.2 })

end message_broker

/-! ## Observation helpers for mailbox contents -/

/-- All high sub-queue contents, in slot registration order, FIFO within. -/
def joinHigh (tqs : List topic_queue_entry) : List message :=
  (tqs.map topic_queue_entry.high_queue).flatten

/-- All normal sub-queue contents, in slot registration order. -/
def joinNormal (tqs : List topic_queue_entry) : List message :=
  (tqs.map topic_queue_entry.normal_queue).flatten

/-- Repeatedly call receive(), collecting the drained messages. -/
def task_mailbox.drain (mb : task_mailbox) : Nat → List message
  | 0 => []
  | n + 1 =>
    match mb.receive with
    | (Except.ok m, mb2) => m :: mb2.drain n
    | (Except.error _, _) => []

/-! ## QoS publisher / subscriber (messaging/qos_pubsub.hpp)

The pending map (etl::map keyed by u16 sequence) and the dedup map
(keyed by `(sender << 16) | topic`) become association lists; etl::map
insert fails when the key exists.  `send_ack_` builds an ACK message and
publishes it on the ACK topic; the subscriber model returns the ACKs it
sends as an outbox list. -/

structure pending_entry where
  msg : message
  last_send : Nat
  attempts : Nat
  deriving DecidableEq, Repr

structure qos_publisher where
  from_task_id : Nat
  ack_topic_id : Nat
  pending : List (Nat × pending_entry)
  local_seq : Nat
  deriving DecidableEq, Repr

namespace qos_publisher

/-- publish(): stamp requires_ack / timestamp / sequence / type, insert in
the bounded pending map, then forward to the broker. -/
def publish (cfg : mailbox_config) (limit : Nat) (now : Nat)
    (qp : qos_publisher) (br : message_broker) (topic_id : Nat) (msg : message) :
    (Except ErrorCode Unit) × qos_publisher × message_broker :=
  let h0 := { msg.header with flags := Nat.lor msg.header.flags 1 }
  let h1 := if h0.timestamp = 0 then { h0 with timestamp := now } else h0
  let h2 := if h1.sequence_number = 0 then
      { h1 with sequence_number := qp.local_seq % 65536 } else h1
  let qp1 := if h1.sequence_number = 0 then
      { qp with local_seq := (qp.local_seq + 1) % 4294967296 } else qp
  let h3 := { h2 with type_ := topic_id }
  let msg1 : message := ⟨h3, msg.payload⟩
  if limit ≤ qp1.pending.length then
    (Except.error ErrorCode.out_of_memory, qp1, br)
  else
    if (qp1.pending.lookup msg1.header.sequence_number).isSome then
      (Except.error ErrorCode.out_of_memory, qp1, br)
    else
      let qp2 := { qp1 with pending := qp1.pending ++
        [(msg1.header.sequence_number, ⟨msg1, msg1.header.timestamp, 1⟩)] }
      let r := message_broker.publish cfg now br topic_id msg1 qp1.from_task_id
      (r.1, qp2, r.2.1)

/-- on_ack(): erase the pending entry with the matching sequence. -/
def on_ack (qp : qos_publisher) (ack : message_ack) : qos_publisher :=
  { qp with pending := qp.pending.filter (fun e => e.1 ≠ ack.sequence_number) }

end qos_publisher

/-- Replace the value of the first pair with the given key. -/
def assoc_update : List (Nat × Nat) → Nat → Nat → List (Nat × Nat)
  | [], _, _ => []
  | (k, v) :: rest, key, val =>
    if k = key then (k, val) :: rest else (k, v) :: assoc_update rest key val

structure qos_subscriber where
  self_task_id : Nat
  ack_topic_id : Nat
  last_seq : List (Nat × Nat)
  deriving DecidableEq, Repr

namespace qos_subscriber

/-- The dedup logic of receive() applied to the broker result `res`
(lines 105-119 of qos_pubsub.hpp): key lookup, equal / non-positive
difference duplicates, monotonic update, ACK generation.  The third
component is the list of ACKs produced by send_ack_. -/
def receive_step (trackLimit : Nat) (sub : qos_subscriber)
    (res : Except ErrorCode message) :
    (Except ErrorCode message) × qos_subscriber × List message_ack :=
  match res with
  | Except.error e => (Except.error e, sub, [])
  | Except.ok msg =>
    let key := msg.header.sender_id * 65536 + msg.header.type_
    let seq := msg.header.sequence_number
    match sub.last_seq.lookup key with
    | some last =>
      if seq = last then
        (Except.error ErrorCode.not_found, sub, [⟨seq, msg.header.sender_id, true, 0⟩])
      else if (seq : Int) - (last : Int) ≤ 0 then
        (Except.error ErrorCode.not_found, sub, [⟨seq, msg.header.sender_id, true, 0⟩])
      else
        let sub1 := { sub with last_seq := assoc_update sub.last_seq key seq }
        if msg_requires_ack msg then
          (Except.ok msg, sub1, [⟨seq, msg.header.sender_id, true, 0⟩])
        else (Except.ok msg, sub1, [])
    | none =>
      let sub1 := if sub.last_seq.length < trackLimit then
          { sub with last_seq := sub.last_seq ++ [(key, seq)] } else sub
      if msg_requires_ack msg then
        (Except.ok msg, sub1, [⟨seq, msg.header.sender_id, true, 0⟩])
      else (Except.ok msg, sub1, [])

end qos_subscriber

/-- The signed 16-bit wrap-around difference between two u16 sequence
numbers, following the words of the spec claim ("signed 16-bit difference
(new - last)"): new - last reduced into [-32768, 32767].  This is the
spec-side definition for the refinement comparison in claim C6; the code
itself computes `(i32)new - (i32)last`. -/
def claimed_signed16_diff (a b : Nat) : Int :=
  let d := (a + 65536 - b % 65536) % 65536
  if d < 32768 then (d : Int) else (d : Int) - 65536

/-! ## Cooperative scheduler (task/taskmaster.hpp)

priority: idle = 0, low = 1, normal = 2, high = 3, critical = 4.
The task function pointer is abstracted to `has_function` (observable
scheduler state does not depend on what the function computes); the two
get_current_time() calls become the `now` parameter and the measured
duration `execDur`. -/

inductive task_state where
  | idle
  | ready
  | running
  | suspended
  | completed
  deriving DecidableEq, Repr

structure task_statistics where
  min_execution_time : Nat
  max_execution_time : Nat
  avg_execution_time : Nat
  missed_deadlines : Nat
  total_execution_time : Nat
  deriving DecidableEq, Repr

structure task_control_block where
  id : Nat
  has_function : Bool
  priority_level : Nat
  state : task_state
  last_run_time : Nat
  next_run_time : Nat
  period_ms : Nat
  execution_time : Nat
  deadline_ms : Nat
  run_count : Nat
  stats : task_statistics
  deriving DecidableEq, Repr

def default_tcb : task_control_block :=
  ⟨invalid_task_id, false, 2, task_state.idle, 0, 0, 0, 0, 0, 0,
    ⟨0xFFFFFFFF, 0, 0, 0, 0⟩⟩

structure taskmaster where
  tasks : List task_control_block
  initialized : Bool
  total_context_switches : Nat
  deriving DecidableEq, Repr

/-- A task the run() scan does not skip: ready and, if periodic, due. -/
def runnable (now : Nat) (t : task_control_block) : Prop :=
  t.state = task_state.ready ∧ (0 < t.period_ms → t.next_run_time ≤ now)

instance (now : Nat) (t : task_control_block) : Decidable (runnable now t) := by
  unfold runnable
  infer_instance

/-- The selection scan of run(): first task strictly above the running
maximum, starting from priority::idle. -/
def select_go (now : Nat) : List task_control_block → Nat → Option Nat → Nat → Option Nat
  | [], _, best, _ => best
  | t :: rest, i, best, highest =>
    if t.state ≠ task_state.ready then select_go now rest (i + 1) best highest
    else if 0 < t.period_ms ∧ now < t.next_run_time then
      select_go now rest (i + 1) best highest
    else if highest < t.priority_level then
      select_go now rest (i + 1) (some i) t.priority_level
    else select_go now rest (i + 1) best highest

def select_task (now : Nat) (tasks : List task_control_block) : Option Nat :=
  select_go now tasks 0 none 0

inductive run_outcome where
  | executed (idx : Nat)
  | delayed
  | not_init
  deriving DecidableEq, Repr

namespace taskmaster

/-- run(): select the highest-priority due ready task, execute it, update
statistics and the periodic / one-shot state transition; delay 1 ms when
nothing ran. -/
def run (now execDur : Nat) (tm : taskmaster) : taskmaster × run_outcome :=
  if ¬tm.initialized then (tm, run_outcome.not_init)
  else
    match select_task now tm.tasks with
    | some i =>
      let t := tm.tasks.getD i default_tcb
      if t.has_function then
        let ed := execDur % 4294967296
        let rc := (t.run_count + 1) % 4294967296
        let total := (t.stats.total_execution_time + ed) % 4294967296
        let t2 : task_control_block :=
          { t with
            state := if 0 < t.period_ms then task_state.ready else task_state.completed
            last_run_time := now
            next_run_time := if 0 < t.period_ms then now + t.period_ms else t.next_run_time
            execution_time := ed
            run_count := rc
            stats :=
              ⟨min ed t.stats.min_execution_time,
               max ed t.stats.max_execution_time,
               total / rc,
               if 0 < t.deadline_ms ∧ t.deadline_ms < ed then
                 (t.stats.missed_deadlines + 1) % 4294967296
               else t.stats.missed_deadlines,
               total⟩ }
        ({ tm with
           tasks := tm.tasks.set i t2
           total_context_switches := (tm.total_context_switches + 1) % 4294967296 },
         run_outcome.executed i)
      else (tm, run_outcome.delayed)
    | none => (tm, run_outcome.delayed)

end taskmaster

end EmCore

namespace EmCore

/-! ### Theorems -/

/-- Helper: addAll distributes over append. -/
theorem Fletcher16Accum.addAll_append (a : Fletcher16Accum) (l1 l2 : List Nat) :
    a.addAll (l1 ++ l2) = (a.addAll l1).addAll l2 :=
  List.foldl_append ..

theorem getD_append_length (l1 l2 : List Nat) (x : Nat) :
    (l1 ++ x :: l2).getD l1.length 0 = x := by
  induction l1 with
  | nil => rfl
  | cons a t ih => simpa using ih

theorem Parser.feed_nil (cfg : ParserConfig) (p : Parser) :
    Parser.feed cfg p [] = p := rfl

theorem Parser.feed_cons (cfg : ParserConfig) (p : Parser) (b : Nat) (rest : List Nat) :
    Parser.feed cfg p (b :: rest) = Parser.feed cfg (Parser.decode cfg p b).1 rest := rfl

theorem Parser.feed_append (cfg : ParserConfig) (p : Parser) (l1 l2 : List Nat) :
    Parser.feed cfg p (l1 ++ l2) = Parser.feed cfg (Parser.feed cfg p l1) l2 :=
  List.foldl_append ..

/-- Feeding the remaining suffix of the sync pattern from a state whose
sync_index points past the matched prefix completes the sync match. -/
theorem Parser.feed_sync (cfg : ParserConfig) :
    ∀ (suf : List Nat) (p : Parser) (pre : List Nat), cfg.sync = pre ++ suf → suf ≠ [] →
    p.state = .SYNC → p.sync_index = pre.length →
    Parser.feed cfg p suf =
      { p with state := .OP_CODE, acc := Fletcher16Accum.reset, sync_index := 0 }
  | [], _, _, _, hne, _, _ => absurd rfl hne
  | b :: rest, p, pre, hsync, _, hst, hidx => by
    rw [Parser.feed_cons]
    have hb : b = cfg.sync.getD p.sync_index 0 := by
      rw [hidx, hsync, getD_append_length]
    have hdec : Parser.decode cfg p b = Parser.on_sync cfg p b := by
      unfold Parser.decode
      rw [hst]
    rw [hdec]
    unfold Parser.on_sync
    rw [if_pos hb]
    have hlen : cfg.sync.length = pre.length + 1 + rest.length := by
      rw [hsync]; simp; omega
    by_cases hrest : rest = []
    · subst hrest
      have : p.sync_index + 1 = cfg.sync.length := by simp at hlen; omega
      rw [if_pos this, Parser.feed_nil]
    · have hne2 : ¬(p.sync_index + 1 = cfg.sync.length) := by
        have : 0 < rest.length := List.length_pos.mpr hrest
        omega
      rw [if_neg hne2]
      have := Parser.feed_sync cfg rest { p with sync_index := p.sync_index + 1 }
        (pre ++ [b]) (by rw [hsync]; simp) hrest hst (by simp [hidx])
      rw [this]

/-- Feeding the full remaining payload from the DATA state stores the bytes,
accumulates the checksum and moves to CHECKSUM. -/
theorem Parser.feed_data (cfg : ParserConfig) :
    ∀ (suf : List Nat) (p : Parser),
    p.state = .DATA → suf ≠ [] → p.data_index + suf.length = p.length →
    Parser.feed cfg p suf =
      { p with data := p.data ++ suf, acc := p.acc.addAll suf,
               data_index := p.length, state := .CHECKSUM, chksum_bytes_read := 0 }
  | [], _, _, hne, _ => absurd rfl hne
  | b :: rest, p, hst, _, hcount => by
    rw [Parser.feed_cons]
    have hdec : Parser.decode cfg p b = Parser.on_data p b := by
      unfold Parser.decode
      rw [hst]
    rw [hdec]
    unfold Parser.on_data
    by_cases hrest : rest = []
    · subst hrest
      have hge : p.data_index + 1 ≥ p.length := by simp at hcount; omega
      rw [if_pos hge, Parser.feed_nil]
      have hL : p.length = p.data_index + 1 := by simp at hcount; omega
      simp [Fletcher16Accum.addAll, hL]
    · have hlt : ¬(p.data_index + 1 ≥ p.length) := by
        have : 0 < rest.length := List.length_pos.mpr hrest
        simp at hcount; omega
      rw [if_neg hlt]
      have := Parser.feed_data cfg rest
        { p with data := p.data ++ [b], acc := p.acc.add b, data_index := p.data_index + 1 }
        hst hrest (by simp at hcount ⊢; omega)
      rw [this]
      simp [Fletcher16Accum.addAll]

/-- Claim C4: for every payload of length at most MaxPayload and every
opcode, feeding a freshly-reset parser the frame
SYNC | opcode | length (1 or 2 bytes BE) | payload | Fletcher-16 BE
makes decode return true on the final byte, get_packet yield the packet
with the input opcode, length and payload, last_error = none, and the
parser back in the SYNC state. -/
theorem C4_parser_roundtrip (cfg : ParserConfig) (op : Nat) (payload : List Nat)
    (hsync : cfg.sync ≠ [])
    (hlen : payload.length ≤ cfg.maxPayload)
    (hwire : payload.length < if cfg.len16 then 65536 else 256)
    (hop : op < 256) (hpb : ∀ b ∈ payload, b < 256)
    (hsb : ∀ b ∈ cfg.sync, b < 256) :
    frame cfg op payload =
      (cfg.sync ++ [op] ++ lenBytes cfg.len16 payload.length ++ payload ++
        [fletcher16 (frameBody cfg op payload) / 256]) ++
      [fletcher16 (frameBody cfg op payload) % 256] ∧
    (frameFinal cfg op payload).2 = true ∧
    (frameFinal cfg op payload).1.state = PacketRxState.SYNC ∧
    (frameFinal cfg op payload).1.error = ParserError.none ∧
    (frameFinal cfg op payload).1.has_packet = true ∧
    ((frameFinal cfg op payload).1.get_packet).map Prod.fst =
      some ⟨op, payload.length, payload, fletcher16 (frameBody cfg op payload)⟩ := by
  refine ⟨by simp [frame, frameBody, List.append_assoc], ?_⟩
  have h1 := Parser.feed_sync cfg cfg.sync Parser.init [] rfl hsync rfl rfl
  have hnotover : ¬(payload.length > cfg.maxPayload) := Nat.not_lt.mpr hlen
  -- the parser state just before the two checksum bytes, then the final step
  suffices h : ∃ lbr : Nat,
      Parser.feed cfg Parser.init
        (cfg.sync ++ [op] ++ lenBytes cfg.len16 payload.length ++ payload ++
          [fletcher16 (frameBody cfg op payload) / 256]) =
      ⟨PacketRxState.CHECKSUM, ParserError.none, false, payload.length, lbr, 1, 0,
        Fletcher16Accum.reset.addAll (frameBody cfg op payload), op, payload.length,
        payload, fletcher16 (frameBody cfg op payload) / 256 * 256⟩ by
    obtain ⟨lbr, hfeed⟩ := h
    unfold frameFinal
    rw [hfeed]
    have hrx : fletcher16 (frameBody cfg op payload) / 256 * 256 +
        fletcher16 (frameBody cfg op payload) % 256 =
        fletcher16 (frameBody cfg op payload) := by omega
    simp only [Parser.decode, Parser.on_checksum]
    rw [if_neg (by decide : ¬(1 = 0))]
    simp only [hrx]
    rw [if_pos (show (Fletcher16Accum.reset.addAll (frameBody cfg op payload)).value =
      fletcher16 (frameBody cfg op payload) from rfl)]
    refine ⟨rfl, rfl, rfl, rfl, ?_⟩
    simp [Parser.get_packet]
  -- compute the pre-checksum state, case-split on the length-field width
  cases hb : cfg.len16 with
  | true =>
    refine ⟨1, ?_⟩
    have hlb : lenBytes true payload.length =
        [payload.length / 256, payload.length % 256] := by simp [lenBytes]
    have hbody : frameBody cfg op payload =
        op :: payload.length / 256 :: payload.length % 256 :: payload := by
      simp [frameBody, lenBytes, hb]
    rw [hlb, hbody]
    have h1L : Parser.feed cfg
        ⟨PacketRxState.SYNC, ParserError.none, false, 0, 0, 0, 0,
          Fletcher16Accum.reset, 0, 0, [], 0⟩ cfg.sync =
        ⟨PacketRxState.OP_CODE, ParserError.none, false, 0, 0, 0, 0,
          Fletcher16Accum.reset, 0, 0, [], 0⟩ := h1
    simp only [Parser.feed_append, Parser.init, h1L]
    have h2 : Parser.feed cfg
        ⟨PacketRxState.OP_CODE, ParserError.none, false, 0, 0, 0, 0,
          Fletcher16Accum.reset, 0, 0, [], 0⟩ [op] =
        ⟨PacketRxState.DATA_LENGTH, ParserError.none, false, 0, 0, 0, 0,
          Fletcher16Accum.reset.add op, op, 0, [], 0⟩ := rfl
    rw [h2]
    have h3a : Parser.decode cfg
        ⟨PacketRxState.DATA_LENGTH, ParserError.none, false, 0, 0, 0, 0,
          Fletcher16Accum.reset.add op, op, 0, [], 0⟩ (payload.length / 256) =
        (⟨PacketRxState.DATA_LENGTH, ParserError.none, false, 0, 1, 0, 0,
          (Fletcher16Accum.reset.add op).add (payload.length / 256), op,
          payload.length / 256 * 256, [], 0⟩, false) := by
      simp [Parser.decode, Parser.on_length, hb]
    by_cases hpay : payload = []
    · subst hpay
      simp only [List.length_nil, Nat.zero_div, Nat.zero_mod] at h3a ⊢
      have h3b : Parser.feed cfg
          ⟨PacketRxState.DATA_LENGTH, ParserError.none, false, 0, 0, 0, 0,
            Fletcher16Accum.reset.add op, op, 0, [], 0⟩ [0, 0] =
          ⟨PacketRxState.CHECKSUM, ParserError.none, false, 0, 1, 0, 0,
            ((Fletcher16Accum.reset.add op).add 0).add 0, op, 0, [], 0⟩ := by
        rw [Parser.feed_cons]
        rw [show (Parser.decode cfg ⟨PacketRxState.DATA_LENGTH, ParserError.none, false,
          0, 0, 0, 0, Fletcher16Accum.reset.add op, op, 0, [], 0⟩ 0).1 =
          ⟨PacketRxState.DATA_LENGTH, ParserError.none, false, 0, 1, 0, 0,
            (Fletcher16Accum.reset.add op).add 0, op, 0, [], 0⟩ from by
            simpa using congrArg Prod.fst h3a]
        rw [Parser.feed_cons, Parser.feed_nil]
        simp [Parser.decode, Parser.on_length, hb]
      rw [h3b, Parser.feed_nil]
      rw [Parser.feed_cons, Parser.feed_nil]
      simp [Parser.decode, Parser.on_checksum, Fletcher16Accum.addAll]
    · -- non-empty payload
      have hplen : payload.length ≠ 0 := by
        simpa using fun h => hpay (List.length_eq_zero.mp h)
      have h3b : Parser.feed cfg
          ⟨PacketRxState.DATA_LENGTH, ParserError.none, false, 0, 0, 0, 0,
            Fletcher16Accum.reset.add op, op, 0, [], 0⟩
          [payload.length / 256, payload.length % 256] =
          ⟨PacketRxState.DATA, ParserError.none, false, 0, 1, 0, 0,
            ((Fletcher16Accum.reset.add op).add (payload.length / 256)).add
              (payload.length % 256), op, payload.length, [], 0⟩ := by
        rw [Parser.feed_cons]
        rw [show (Parser.decode cfg ⟨PacketRxState.DATA_LENGTH, ParserError.none, false,
          0, 0, 0, 0, Fletcher16Accum.reset.add op, op, 0, [], 0⟩ (payload.length / 256)).1 =
          ⟨PacketRxState.DATA_LENGTH, ParserError.none, false, 0, 1, 0, 0,
            (Fletcher16Accum.reset.add op).add (payload.length / 256), op,
            payload.length / 256 * 256, [], 0⟩ from by
            simpa using congrArg Prod.fst h3a]
        rw [Parser.feed_cons, Parser.feed_nil]
        have hdm : payload.length / 256 * 256 + payload.length % 256 = payload.length := by
          omega
        simp [Parser.decode, Parser.on_length, hb, hdm, hnotover, hplen]
      rw [h3b]
      have h4 := Parser.feed_data cfg payload
        ⟨PacketRxState.DATA, ParserError.none, false, 0, 1, 0, 0,
          ((Fletcher16Accum.reset.add op).add (payload.length / 256)).add
            (payload.length % 256), op, payload.length, [], 0⟩
        rfl hpay (by simp)
      rw [h4]
      rw [Parser.feed_cons, Parser.feed_nil]
      simp [Parser.decode, Parser.on_checksum, Fletcher16Accum.addAll]
  | false =>
    refine ⟨0, ?_⟩
    have hlb : lenBytes false payload.length = [payload.length] := by
      simp [lenBytes]
    have hbody : frameBody cfg op payload = op :: payload.length :: payload := by
      simp [frameBody, lenBytes, hb]
    rw [hlb, hbody]
    have h1L : Parser.feed cfg
        ⟨PacketRxState.SYNC, ParserError.none, false, 0, 0, 0, 0,
          Fletcher16Accum.reset, 0, 0, [], 0⟩ cfg.sync =
        ⟨PacketRxState.OP_CODE, ParserError.none, false, 0, 0, 0, 0,
          Fletcher16Accum.reset, 0, 0, [], 0⟩ := h1
    simp only [Parser.feed_append, Parser.init, h1L]
    have h2 : Parser.feed cfg
        ⟨PacketRxState.OP_CODE, ParserError.none, false, 0, 0, 0, 0,
          Fletcher16Accum.reset, 0, 0, [], 0⟩ [op] =
        ⟨PacketRxState.DATA_LENGTH, ParserError.none, false, 0, 0, 0, 0,
          Fletcher16Accum.reset.add op, op, 0, [], 0⟩ := rfl
    rw [h2]
    by_cases hpay : payload = []
    · subst hpay
      simp only [List.length_nil]
      have h3 : Parser.feed cfg
          ⟨PacketRxState.DATA_LENGTH, ParserError.none, false, 0, 0, 0, 0,
            Fletcher16Accum.reset.add op, op, 0, [], 0⟩ [0] =
          ⟨PacketRxState.CHECKSUM, ParserError.none, false, 0, 0, 0, 0,
            (Fletcher16Accum.reset.add op).add 0, op, 0, [], 0⟩ := by
        rw [Parser.feed_cons, Parser.feed_nil]
        simp [Parser.decode, Parser.on_length, hb]
      rw [h3, Parser.feed_nil]
      rw [Parser.feed_cons, Parser.feed_nil]
      simp [Parser.decode, Parser.on_checksum, Fletcher16Accum.addAll]
    · have hplen : payload.length ≠ 0 := by
        simpa using fun h => hpay (List.length_eq_zero.mp h)
      have h3 : Parser.feed cfg
          ⟨PacketRxState.DATA_LENGTH, ParserError.none, false, 0, 0, 0, 0,
            Fletcher16Accum.reset.add op, op, 0, [], 0⟩ [payload.length] =
          ⟨PacketRxState.DATA, ParserError.none, false, 0, 0, 0, 0,
            (Fletcher16Accum.reset.add op).add payload.length, op,
            payload.length, [], 0⟩ := by
        rw [Parser.feed_cons, Parser.feed_nil]
        simp [Parser.decode, Parser.on_length, hb, hnotover, hplen]
      rw [h3]
      have h4 := Parser.feed_data cfg payload
        ⟨PacketRxState.DATA, ParserError.none, false, 0, 0, 0, 0,
          (Fletcher16Accum.reset.add op).add payload.length, op, payload.length, [], 0⟩
        rfl hpay (by simp)
      rw [h4]
      rw [Parser.feed_cons, Parser.feed_nil]
      simp [Parser.decode, Parser.on_checksum, Fletcher16Accum.addAll]

/-- Witness for C4: the spec scenario frame 55 AA 03 00 02 41 42 D9 88. -/
theorem C4_parser_roundtrip_witness :
    ((⟨64, [85, 170], true⟩ : ParserConfig).sync ≠ [] ∧
      ([65, 66] : List Nat).length ≤ 64) ∧
    (frame ⟨64, [85, 170], true⟩ 3 [65, 66] =
      ((⟨64, [85, 170], true⟩ : ParserConfig).sync ++ [3] ++
        lenBytes true ([65, 66] : List Nat).length ++ [65, 66] ++
        [fletcher16 (frameBody ⟨64, [85, 170], true⟩ 3 [65, 66]) / 256]) ++
      [fletcher16 (frameBody ⟨64, [85, 170], true⟩ 3 [65, 66]) % 256] ∧
    (frameFinal ⟨64, [85, 170], true⟩ 3 [65, 66]).2 = true ∧
    (frameFinal ⟨64, [85, 170], true⟩ 3 [65, 66]).1.state = PacketRxState.SYNC ∧
    (frameFinal ⟨64, [85, 170], true⟩ 3 [65, 66]).1.error = ParserError.none ∧
    (frameFinal ⟨64, [85, 170], true⟩ 3 [65, 66]).1.has_packet = true ∧
    ((frameFinal ⟨64, [85, 170], true⟩ 3 [65, 66]).1.get_packet).map Prod.fst =
      some ⟨3, ([65, 66] : List Nat).length, [65, 66],
        fletcher16 (frameBody ⟨64, [85, 170], true⟩ 3 [65, 66])⟩) :=
  ⟨⟨by decide, by decide⟩,
    C4_parser_roundtrip ⟨64, [85, 170], true⟩ 3 [65, 66] (by decide) (by decide)
      (by decide) (by decide) (by decide) (by decide)⟩

/-- The decoder only ever produces the five declared states. -/
theorem Parser.decode_state_mem (cfg : ParserConfig) (p : Parser) (b : Nat) :
    (Parser.decode cfg p b).1.state = PacketRxState.SYNC ∨
    (Parser.decode cfg p b).1.state = PacketRxState.OP_CODE ∨
    (Parser.decode cfg p b).1.state = PacketRxState.DATA_LENGTH ∨
    (Parser.decode cfg p b).1.state = PacketRxState.DATA ∨
    (Parser.decode cfg p b).1.state = PacketRxState.CHECKSUM := by
  rcases p with ⟨st, e, pr, di, lbr, cbr, si, acc, opc, len, data, crx⟩
  cases st <;>
    simp only [Parser.decode, Parser.on_sync, Parser.on_opcode, Parser.on_length,
      Parser.on_data, Parser.on_checksum, Parser.reset] <;>
    (try split_ifs) <;> simp

theorem Parser.feed_state_mem (cfg : ParserConfig) :
    ∀ (bytes : List Nat) (p : Parser),
    (p.state = PacketRxState.SYNC ∨ p.state = PacketRxState.OP_CODE ∨
      p.state = PacketRxState.DATA_LENGTH ∨ p.state = PacketRxState.DATA ∨
      p.state = PacketRxState.CHECKSUM) →
    ((Parser.feed cfg p bytes).state = PacketRxState.SYNC ∨
      (Parser.feed cfg p bytes).state = PacketRxState.OP_CODE ∨
      (Parser.feed cfg p bytes).state = PacketRxState.DATA_LENGTH ∨
      (Parser.feed cfg p bytes).state = PacketRxState.DATA ∨
      (Parser.feed cfg p bytes).state = PacketRxState.CHECKSUM)
  | [], _, hp => hp
  | b :: rest, p, _ => by
    rw [Parser.feed_cons]
    exact Parser.feed_state_mem cfg rest _ (Parser.decode_state_mem cfg p b)

/-- Claim C5: for every byte stream the parser state stays in
{SYNC, OPCODE, LENGTH, DATA, CHECKSUM}; a checksum mismatch or a length
overflow emits no packet (decode returns false, has_packet is false), puts
the parser back in SYNC and reports checksum_mismatch resp. length_overflow. -/
theorem C5_parser_state_safety (cfg : ParserConfig) :
    (∀ (bytes : List Nat),
      (Parser.feed cfg Parser.init bytes).state = PacketRxState.SYNC ∨
      (Parser.feed cfg Parser.init bytes).state = PacketRxState.OP_CODE ∨
      (Parser.feed cfg Parser.init bytes).state = PacketRxState.DATA_LENGTH ∨
      (Parser.feed cfg Parser.init bytes).state = PacketRxState.DATA ∨
      (Parser.feed cfg Parser.init bytes).state = PacketRxState.CHECKSUM) ∧
    (∀ (p : Parser) (b : Nat), p.state = PacketRxState.CHECKSUM →
      p.chksum_bytes_read ≠ 0 → p.acc.value ≠ p.checksum_rx + b →
      (Parser.decode cfg p b).2 = false ∧
      (Parser.decode cfg p b).1.has_packet = false ∧
      (Parser.decode cfg p b).1.state = PacketRxState.SYNC ∧
      (Parser.decode cfg p b).1.error = ParserError.checksum_mismatch) ∧
    (∀ (p : Parser) (b : Nat), cfg.len16 = true → p.state = PacketRxState.DATA_LENGTH →
      p.len_bytes_read ≠ 0 → p.length + b > cfg.maxPayload →
      (Parser.decode cfg p b).2 = false ∧
      (Parser.decode cfg p b).1.has_packet = false ∧
      (Parser.decode cfg p b).1.state = PacketRxState.SYNC ∧
      (Parser.decode cfg p b).1.error = ParserError.length_overflow) ∧
    (∀ (p : Parser) (b : Nat), cfg.len16 = false → p.state = PacketRxState.DATA_LENGTH →
      b > cfg.maxPayload →
      (Parser.decode cfg p b).2 = false ∧
      (Parser.decode cfg p b).1.has_packet = false ∧
      (Parser.decode cfg p b).1.state = PacketRxState.SYNC ∧
      (Parser.decode cfg p b).1.error = ParserError.length_overflow) := by
  refine ⟨?_, ?_, ?_, ?_⟩
  · intro bytes
    exact Parser.feed_state_mem cfg bytes Parser.init (Or.inl rfl)
  · intro p b hst hcbr hne
    have hdec : Parser.decode cfg p b = Parser.on_checksum p b := by
      unfold Parser.decode; rw [hst]
    rw [hdec]
    unfold Parser.on_checksum
    rw [if_neg hcbr, if_neg hne]
    simp [Parser.reset, Parser.has_packet]
  · intro p b h16 hst hlbr hover
    have hdec : Parser.decode cfg p b = Parser.on_length cfg p b := by
      unfold Parser.decode; rw [hst]
    rw [hdec]
    unfold Parser.on_length
    rw [if_pos h16, if_neg hlbr, if_pos hover]
    simp [Parser.reset, Parser.has_packet]
  · intro p b h16 hst hover
    have hdec : Parser.decode cfg p b = Parser.on_length cfg p b := by
      unfold Parser.decode; rw [hst]
    rw [hdec]
    unfold Parser.on_length
    rw [if_neg (by simp [h16] : ¬(cfg.len16 = true)), if_pos hover]
    simp [Parser.reset, Parser.has_packet]

/-- Witness for C5: a corrupted checksum frame and an oversized length,
for both length-field widths. -/
theorem C5_parser_state_safety_witness :
    ((Parser.decode ⟨64, [85, 170], true⟩
        ⟨PacketRxState.CHECKSUM, ParserError.none, false, 0, 0, 1, 0,
          Fletcher16Accum.reset, 0, 0, [], 0⟩ 5).2 = false ∧
      (Parser.decode ⟨64, [85, 170], true⟩
        ⟨PacketRxState.CHECKSUM, ParserError.none, false, 0, 0, 1, 0,
          Fletcher16Accum.reset, 0, 0, [], 0⟩ 5).1.has_packet = false ∧
      (Parser.decode ⟨64, [85, 170], true⟩
        ⟨PacketRxState.CHECKSUM, ParserError.none, false, 0, 0, 1, 0,
          Fletcher16Accum.reset, 0, 0, [], 0⟩ 5).1.state = PacketRxState.SYNC ∧
      (Parser.decode ⟨64, [85, 170], true⟩
        ⟨PacketRxState.CHECKSUM, ParserError.none, false, 0, 0, 1, 0,
          Fletcher16Accum.reset, 0, 0, [], 0⟩ 5).1.error = ParserError.checksum_mismatch) ∧
    ((Parser.decode ⟨64, [85, 170], true⟩
        ⟨PacketRxState.DATA_LENGTH, ParserError.none, false, 0, 1, 0, 0,
          Fletcher16Accum.reset, 0, 256, [], 0⟩ 0).1.error = ParserError.length_overflow) ∧
    ((Parser.decode ⟨64, [85, 170], false⟩
        ⟨PacketRxState.DATA_LENGTH, ParserError.none, false, 0, 0, 0, 0,
          Fletcher16Accum.reset, 0, 0, [], 0⟩ 65).1.error = ParserError.length_overflow) :=
  ⟨(C5_parser_state_safety ⟨64, [85, 170], true⟩).2.1
      ⟨PacketRxState.CHECKSUM, ParserError.none, false, 0, 0, 1, 0,
        Fletcher16Accum.reset, 0, 0, [], 0⟩ 5 rfl (by decide) (by decide),
    ((C5_parser_state_safety ⟨64, [85, 170], true⟩).2.2.1
      ⟨PacketRxState.DATA_LENGTH, ParserError.none, false, 0, 1, 0, 0,
        Fletcher16Accum.reset, 0, 256, [], 0⟩ 0 rfl rfl (by decide) (by decide)).2.2.2,
    ((C5_parser_state_safety ⟨64, [85, 170], false⟩).2.2.2
      ⟨PacketRxState.DATA_LENGTH, ParserError.none, false, 0, 0, 0, 0,
        Fletcher16Accum.reset, 0, 0, [], 0⟩ 65 rfl rfl (by decide)).2.2.2⟩

theorem ByteRing.full_iff_size (r : ByteRing) (h : r.Inv) :
    (r.head + 1) % r.cap = r.tail ↔ r.size = r.cap - 1 := by
  obtain ⟨h1, h2, h3⟩ := h
  have hm : (r.head + 1) % r.cap = if r.head + 1 = r.cap then 0 else r.head + 1 := by
    split
    · next heq => rw [heq, Nat.mod_self]
    · next hne => exact Nat.mod_eq_of_lt (by omega)
  rw [hm]
  unfold size
  split_ifs <;> omega

theorem ByteRing.push_eq_none_iff (r : ByteRing) (b : Nat) (h : r.Inv) :
    r.push b = none ↔ r.size = r.cap - 1 := by
  rw [← ByteRing.full_iff_size r h]
  by_cases hc : (r.head + 1) % r.cap = r.tail
  · simp [push, next_index, hc]
  · simp [push, next_index, hc]

theorem ByteRing.size_le (r : ByteRing) (h : r.Inv) : r.size ≤ r.cap - 1 := by
  obtain ⟨h1, h2, h3⟩ := h
  unfold size
  split <;> omega

theorem ByteRing.applyOp_inv (r : ByteRing) (op : ByteRing.Op) (h : r.Inv) :
    (r.applyOp op).Inv ∧ (r.applyOp op).cap = r.cap := by
  obtain ⟨h1, h2, h3⟩ := h
  cases op with
  | push b =>
    by_cases hc : (r.head + 1) % r.cap = r.tail
    · simp only [applyOp, push, next_index, hc, if_pos rfl, Option.getD_none]
      exact ⟨⟨h1, h2, h3⟩, rfl⟩
    · simp only [applyOp, push, next_index, if_neg hc, Option.getD_some]
      exact ⟨⟨h1, Nat.mod_lt _ (by omega), h3⟩, trivial⟩
  | pop =>
    by_cases hc : r.head = r.tail
    · simp only [applyOp, pop, if_pos hc]
      exact ⟨⟨h1, h2, h3⟩, trivial⟩
    · simp only [applyOp, pop, if_neg hc]
      exact ⟨⟨h1, h2, Nat.mod_lt _ (by omega)⟩, trivial⟩

theorem ByteRing.applyOps_inv (r : ByteRing) (ops : List ByteRing.Op) (h : r.Inv) :
    (r.applyOps ops).Inv ∧ (r.applyOps ops).cap = r.cap := by
  induction ops generalizing r with
  | nil => exact ⟨h, rfl⟩
  | cons op rest ih =>
    obtain ⟨hi, hc⟩ := ByteRing.applyOp_inv r op h
    obtain ⟨hi2, hc2⟩ := ih (r.applyOp op) hi
    exact ⟨hi2, by rw [applyOps] at *; simp only [List.foldl_cons]; omega⟩

theorem ByteRing.init_inv (cap : Nat) (h : 1 ≤ cap) : (ByteRing.init cap).Inv :=
  ⟨h, by simpa [init] using h, by simpa [init] using h⟩

/-- Claim C10: for every byte ring of declared capacity N and every sequence
of push/pop operations starting from the fresh ring, the ring holds at most
N-1 bytes, and a push fails (returning false and storing nothing) exactly
when size() = N-1. -/
theorem C10_byte_ring_capacity (cap : Nat) (ops : List ByteRing.Op) (b : Nat)
    (hcap : 1 ≤ cap) :
    (ByteRing.applyOps (ByteRing.init cap) ops).size ≤ cap - 1 ∧
    ((ByteRing.applyOps (ByteRing.init cap) ops).push b = none ↔
      (ByteRing.applyOps (ByteRing.init cap) ops).size = cap - 1) ∧
    ((ByteRing.applyOps (ByteRing.init cap) ops).push b = none →
      ByteRing.applyOp (ByteRing.applyOps (ByteRing.init cap) ops) (ByteRing.Op.push b) =
        ByteRing.applyOps (ByteRing.init cap) ops) := by
  obtain ⟨hi, hc⟩ := ByteRing.applyOps_inv (ByteRing.init cap) ops (ByteRing.init_inv cap hcap)
  have hc2 : (ByteRing.applyOps (ByteRing.init cap) ops).cap = cap := by
    simpa [ByteRing.init] using hc
  refine ⟨?_, ?_, ?_⟩
  · have := ByteRing.size_le _ hi
    omega
  · rw [ByteRing.push_eq_none_iff _ b hi, hc2]
  · intro hnone
    simp [ByteRing.applyOp, hnone]

/-- Witness for C10 at capacity 2 after one push: the ring is full at one
byte and a further push fails. -/
theorem C10_byte_ring_capacity_witness :
    1 ≤ 2 ∧
    ((ByteRing.applyOps (ByteRing.init 2) [ByteRing.Op.push 7]).size ≤ 2 - 1 ∧
    ((ByteRing.applyOps (ByteRing.init 2) [ByteRing.Op.push 7]).push 3 = none ↔
      (ByteRing.applyOps (ByteRing.init 2) [ByteRing.Op.push 7]).size = 2 - 1) ∧
    ((ByteRing.applyOps (ByteRing.init 2) [ByteRing.Op.push 7]).push 3 = none →
      ByteRing.applyOp (ByteRing.applyOps (ByteRing.init 2) [ByteRing.Op.push 7])
          (ByteRing.Op.push 3) =
        ByteRing.applyOps (ByteRing.init 2) [ByteRing.Op.push 7])) :=
  ⟨by decide, C10_byte_ring_capacity 2 [ByteRing.Op.push 7] 3 (by decide)⟩

/-- Claim C7: when the pending map of a qos_publisher is full, publish
returns out_of_memory, inserts nothing into the pending map, and never
reaches the broker (pending map and broker unchanged). -/
theorem C7_qos_pending_full (cfg : mailbox_config) (limit now : Nat)
    (qp : qos_publisher) (br : message_broker) (topic_id : Nat) (msg : message)
    (hfull : limit ≤ qp.pending.length) :
    (qos_publisher.publish cfg limit now qp br topic_id msg).1 =
      Except.error ErrorCode.out_of_memory ∧
    (qos_publisher.publish cfg limit now qp br topic_id msg).2.1.pending = qp.pending ∧
    (qos_publisher.publish cfg limit now qp br topic_id msg).2.2 = br := by
  unfold qos_publisher.publish
  by_cases hs : msg.header.sequence_number = 0 <;>
    by_cases ht : msg.header.timestamp = 0 <;>
      simp [hs, ht, hfull]

/-- Witness for C7 with a pending limit of zero. -/
theorem C7_qos_pending_full_witness :
    (0 ≤ ([] : List (Nat × pending_entry)).length) ∧
    ((qos_publisher.publish ⟨1, 1, 3⟩ 0 5 ⟨1, 2, [], 1⟩ ⟨[], [], 0, 0, 0, 0, true⟩ 7
        ⟨⟨0, 0, 0, 0, 0, 0, 0, 0⟩, 0⟩).1 = Except.error ErrorCode.out_of_memory ∧
      (qos_publisher.publish ⟨1, 1, 3⟩ 0 5 ⟨1, 2, [], 1⟩ ⟨[], [], 0, 0, 0, 0, true⟩ 7
        ⟨⟨0, 0, 0, 0, 0, 0, 0, 0⟩, 0⟩).2.1.pending = ([] : List (Nat × pending_entry)) ∧
      (qos_publisher.publish ⟨1, 1, 3⟩ 0 5 ⟨1, 2, [], 1⟩ ⟨[], [], 0, 0, 0, 0, true⟩ 7
        ⟨⟨0, 0, 0, 0, 0, 0, 0, 0⟩, 0⟩).2.2 = ⟨[], [], 0, 0, 0, 0, true⟩) :=
  ⟨by decide,
    C7_qos_pending_full ⟨1, 1, 3⟩ 0 5 ⟨1, 2, [], 1⟩ ⟨[], [], 0, 0, 0, 0, true⟩ 7
      ⟨⟨0, 0, 0, 0, 0, 0, 0, 0⟩, 0⟩ (by decide)⟩

theorem lookup_assoc_update (l : List (Nat × Nat)) (key v w : Nat)
    (h : l.lookup key = some w) :
    (assoc_update l key v).lookup key = some v := by
  induction l with
  | nil => simp [List.lookup] at h
  | cons p rest ih =>
    obtain ⟨k0, v0⟩ := p
    by_cases hk : k0 = key
    · subst hk
      simp [assoc_update, List.lookup]
    · have hbeq : (key == k0) = false := by
        simp [Ne.symm hk]
      unfold assoc_update
      rw [if_neg hk]
      simp only [List.lookup, hbeq] at h ⊢
      exact ih h

/-- Counterexample to claim C6 as stated: with stored sequence 65535 and a
new message with sequence 1 the signed 16-bit wrap-around difference is +2
(positive, so the claim demands delivery), yet the code compares plain
integers and treats the message as a duplicate, returning not_found and
leaving the stored sequence unchanged. -/
theorem C6_counterexample :
    0 < claimed_signed16_diff 1 65535 ∧
    (qos_subscriber.receive_step 32 ⟨3, 5, [(131081, 65535)]⟩
      (Except.ok ⟨⟨9, 2, 0, 0, 1, 1, 0, 1⟩, 7⟩)).1 = Except.error ErrorCode.not_found ∧
    (qos_subscriber.receive_step 32 ⟨3, 5, [(131081, 65535)]⟩
      (Except.ok ⟨⟨9, 2, 0, 0, 1, 1, 0, 1⟩, 7⟩)).2.1 = ⟨3, 5, [(131081, 65535)]⟩ := by
  refine ⟨by decide, rfl, rfl⟩

/-- Claim C6 (amended): the duplicate test is the plain integer comparison
new ≤ last on the raw 16-bit values, `(i32)new - (i32)last ≤ 0`, without
16-bit wrap-around; duplicates return not_found and always produce an ACK,
and a strictly larger sequence updates the stored value, is returned, and
produces an ACK exactly when requires_ack is set. -/
theorem C6_qos_dedup_amended (tl : Nat) (sub : qos_subscriber) (msg : message)
    (last : Nat)
    (hlast : sub.last_seq.lookup (msg.header.sender_id * 65536 + msg.header.type_) =
      some last) :
    (msg.header.sequence_number ≤ last →
      (qos_subscriber.receive_step tl sub (Except.ok msg)).1 =
        Except.error ErrorCode.not_found ∧
      (qos_subscriber.receive_step tl sub (Except.ok msg)).2.1 = sub ∧
      (qos_subscriber.receive_step tl sub (Except.ok msg)).2.2 =
        [⟨msg.header.sequence_number, msg.header.sender_id, true, 0⟩]) ∧
    (last < msg.header.sequence_number →
      (qos_subscriber.receive_step tl sub (Except.ok msg)).1 = Except.ok msg ∧
      ((qos_subscriber.receive_step tl sub (Except.ok msg)).2.1.last_seq.lookup
        (msg.header.sender_id * 65536 + msg.header.type_)) =
        some msg.header.sequence_number ∧
      (msg_requires_ack msg = true →
        (qos_subscriber.receive_step tl sub (Except.ok msg)).2.2 =
          [⟨msg.header.sequence_number, msg.header.sender_id, true, 0⟩]) ∧
      (msg_requires_ack msg = false →
        (qos_subscriber.receive_step tl sub (Except.ok msg)).2.2 = [])) := by
  constructor
  · intro hle
    unfold qos_subscriber.receive_step
    simp only [hlast]
    by_cases he : msg.header.sequence_number = last
    · simp [he]
    · have hlt : (msg.header.sequence_number : Int) - (last : Int) ≤ 0 := by
        omega
      simp [he, hlt]
  · intro hgt
    have hne : ¬(msg.header.sequence_number = last) := by omega
    have hpos : ¬((msg.header.sequence_number : Int) - (last : Int) ≤ 0) := by
      omega
    unfold qos_subscriber.receive_step
    simp only [hlast, if_neg hne, if_neg hpos]
    by_cases hra : msg_requires_ack msg <;>
      simp [hra, lookup_assoc_update sub.last_seq _ _ _ hlast]

/-- Witness for the amended C6: duplicate (sequence 5 twice) dropped with
an ACK; successor (sequence 6) delivered. -/
theorem C6_qos_dedup_amended_witness :
    ((⟨3, 5, [(131081, 5)]⟩ : qos_subscriber).last_seq.lookup (2 * 65536 + 9) =
      some 5) ∧
    ((qos_subscriber.receive_step 32 ⟨3, 5, [(131081, 5)]⟩
        (Except.ok ⟨⟨9, 2, 0, 0, 1, 1, 0, 5⟩, 7⟩)).1 =
      Except.error ErrorCode.not_found) ∧
    ((qos_subscriber.receive_step 32 ⟨3, 5, [(131081, 5)]⟩
        (Except.ok ⟨⟨9, 2, 0, 0, 1, 1, 0, 6⟩, 7⟩)).1 =
      Except.ok ⟨⟨9, 2, 0, 0, 1, 1, 0, 6⟩, 7⟩) :=
  ⟨by decide,
    ((C6_qos_dedup_amended 32 ⟨3, 5, [(131081, 5)]⟩ ⟨⟨9, 2, 0, 0, 1, 1, 0, 5⟩, 7⟩ 5
      (by decide)).1 (by decide)).1,
    ((C6_qos_dedup_amended 32 ⟨3, 5, [(131081, 5)]⟩ ⟨⟨9, 2, 0, 0, 1, 1, 0, 6⟩, 7⟩ 5
      (by decide)).2 (by decide)).1⟩

/-! ### Scheduler selection -/

/-- The run() scan returns the first index realising the maximal priority
among ready-and-due tasks, provided that maximum is above priority::idle;
it returns none when every ready-and-due task has priority idle.  The
statement is relativised to an already-scanned prefix `pre`. -/
theorem select_go_spec (now : Nat) :
    ∀ (ts pre : List task_control_block) (best : Option Nat) (highest : Nat),
    (best = none → highest = 0 ∧
      ∀ k, k < pre.length → runnable now (pre.getD k default_tcb) →
        (pre.getD k default_tcb).priority_level ≤ 0) →
    (∀ j, best = some j → j < pre.length ∧ runnable now (pre.getD j default_tcb) ∧
      (pre.getD j default_tcb).priority_level = highest ∧ 0 < highest ∧
      (∀ k, k < pre.length → runnable now (pre.getD k default_tcb) →
        (pre.getD k default_tcb).priority_level ≤ highest) ∧
      (∀ k, k < j → runnable now (pre.getD k default_tcb) →
        (pre.getD k default_tcb).priority_level < highest)) →
    (∀ j, select_go now ts pre.length best highest = some j →
      j < (pre ++ ts).length ∧ runnable now ((pre ++ ts).getD j default_tcb) ∧
      0 < ((pre ++ ts).getD j default_tcb).priority_level ∧
      (∀ k, k < (pre ++ ts).length → runnable now ((pre ++ ts).getD k default_tcb) →
        ((pre ++ ts).getD k default_tcb).priority_level ≤
          ((pre ++ ts).getD j default_tcb).priority_level) ∧
      (∀ k, k < j → runnable now ((pre ++ ts).getD k default_tcb) →
        ((pre ++ ts).getD k default_tcb).priority_level <
          ((pre ++ ts).getD j default_tcb).priority_level)) ∧
    (select_go now ts pre.length best highest = none →
      ∀ k, k < (pre ++ ts).length → runnable now ((pre ++ ts).getD k default_tcb) →
        ((pre ++ ts).getD k default_tcb).priority_level = 0) := by
  intro ts
  induction ts with
  | nil =>
    intro pre best highest h1 h2
    constructor
    · intro j hj
      rw [select_go] at hj
      obtain ⟨hjl, hrun, hprio, hpos, hmax, hfirst⟩ := h2 j hj
      rw [List.append_nil]
      refine ⟨hjl, hrun, by omega, ?_, ?_⟩
      · intro k hk hr
        rw [hprio]
        exact hmax k hk hr
      · intro k hk hr
        rw [hprio]
        exact hfirst k hk hr
    · intro hnone
      rw [select_go] at hnone
      obtain ⟨hh, hall⟩ := h1 hnone
      rw [List.append_nil]
      intro k hk hr
      have := hall k hk hr
      omega
  | cons t rest ih =>
    intro pre best highest h1 h2
    have hgetT : ∀ d, (pre ++ [t]).getD pre.length d = t := by
      intro d
      rw [List.getD_append_right _ _ _ _ (Nat.le_refl _)]
      simp
    have hassoc : (pre ++ [t]) ++ rest = pre ++ t :: rest := by
      simp
    have hlen1 : (pre ++ [t]).length = pre.length + 1 := by simp
    have hgetPre : ∀ k d, k < pre.length → (pre ++ [t]).getD k d = pre.getD k d := by
      intro k d hk
      exact List.getD_append _ _ _ _ hk
    by_cases hready : t.state ≠ task_state.ready
    · -- skipped: not ready
      have hnr : ¬ runnable now t := fun hr => hready hr.1
      have step : select_go now (t :: rest) pre.length best highest =
          select_go now rest (pre.length + 1) best highest := by
        rw [select_go, if_pos hready]
      have := ih (pre ++ [t]) best highest
        (fun hb => by
          obtain ⟨hh, hall⟩ := h1 hb
          refine ⟨hh, ?_⟩
          intro k hk hr
          rw [hlen1] at hk
          rcases Nat.lt_or_ge k pre.length with hlt | hge
          · rw [hgetPre k _ hlt] at hr ⊢
            exact hall k hlt hr
          · have hkp : k = pre.length := by omega
            subst hkp
            rw [hgetT] at hr
            exact absurd hr hnr)
        (fun j hb => by
          obtain ⟨hjl, hrun, hprio, hpos, hmax, hfirst⟩ := h2 j hb
          refine ⟨by omega, ?_, ?_, hpos, ?_, ?_⟩
          · rw [hgetPre j _ hjl]; exact hrun
          · rw [hgetPre j _ hjl]; exact hprio
          · intro k hk hr
            rw [hlen1] at hk
            rcases Nat.lt_or_ge k pre.length with hlt | hge
            · rw [hgetPre k _ hlt] at hr ⊢
              exact hmax k hlt hr
            · have hkp : k = pre.length := by omega
              subst hkp
              rw [hgetT] at hr
              exact absurd hr hnr
          · intro k hk hr
            have hkl : k < pre.length := by omega
            rw [hgetPre k _ hkl] at hr ⊢
            exact hfirst k hk hr)
      rw [hlen1, hassoc] at this
      rw [step]
      exact this
    · push_neg at hready
      by_cases hdue : 0 < t.period_ms ∧ now < t.next_run_time
      · -- skipped: periodic, not due
        have hnr : ¬ runnable now t := fun hr => by
          have := hr.2 hdue.1
          omega
        have step : select_go now (t :: rest) pre.length best highest =
            select_go now rest (pre.length + 1) best highest := by
          rw [select_go, if_neg (by simp [hready]), if_pos hdue]
        have := ih (pre ++ [t]) best highest
          (fun hb => by
            obtain ⟨hh, hall⟩ := h1 hb
            refine ⟨hh, ?_⟩
            intro k hk hr
            rw [hlen1] at hk
            rcases Nat.lt_or_ge k pre.length with hlt | hge
            · rw [hgetPre k _ hlt] at hr ⊢
              exact hall k hlt hr
            · have hkp : k = pre.length := by omega
              subst hkp
              rw [hgetT] at hr
              exact absurd hr hnr)
          (fun j hb => by
            obtain ⟨hjl, hrun, hprio, hpos, hmax, hfirst⟩ := h2 j hb
            refine ⟨by omega, ?_, ?_, hpos, ?_, ?_⟩
            · rw [hgetPre j _ hjl]; exact hrun
            · rw [hgetPre j _ hjl]; exact hprio
            · intro k hk hr
              rw [hlen1] at hk
              rcases Nat.lt_or_ge k pre.length with hlt | hge
              · rw [hgetPre k _ hlt] at hr ⊢
                exact hmax k hlt hr
              · have hkp : k = pre.length := by omega
                subst hkp
                rw [hgetT] at hr
                exact absurd hr hnr
            · intro k hk hr
              have hkl : k < pre.length := by omega
              rw [hgetPre k _ hkl] at hr ⊢
              exact hfirst k hk hr)
        rw [hlen1, hassoc] at this
        rw [step]
        exact this
      · -- t is runnable
        have hrun_t : runnable now t := by
          refine ⟨hready, ?_⟩
          intro hp
          by_contra hlt
          exact hdue ⟨hp, by omega⟩
        by_cases hsel : highest < t.priority_level
        · -- t becomes the new best candidate
          have step : select_go now (t :: rest) pre.length best highest =
              select_go now rest (pre.length + 1) (some pre.length) t.priority_level := by
            rw [select_go, if_neg (by simp [hready]), if_neg hdue, if_pos hsel]
          have hhnn : 0 ≤ highest := Nat.zero_le _
          have hboundOld : ∀ k, k < pre.length → runnable now (pre.getD k default_tcb) →
              (pre.getD k default_tcb).priority_level ≤ highest := by
            intro k hk hr
            rcases hb : best with _ | j
            · obtain ⟨hh, hall⟩ := h1 hb
              have := hall k hk hr
              omega
            · obtain ⟨_, _, _, _, hmax, _⟩ := h2 j hb
              exact hmax k hk hr
          have := ih (pre ++ [t]) (some pre.length) t.priority_level
            (fun hb => by cases hb)
            (fun j hb => by
              have hj : j = pre.length := by
                injection hb with hb2
                omega
              subst hj
              refine ⟨by omega, ?_, ?_, by omega, ?_, ?_⟩
              · rw [hgetT]; exact hrun_t
              · rw [hgetT]
              · intro k hk hr
                rw [hlen1] at hk
                rcases Nat.lt_or_ge k pre.length with hlt | hge
                · rw [hgetPre k _ hlt] at hr ⊢
                  have := hboundOld k hlt hr
                  omega
                · have hkp : k = pre.length := by omega
                  subst hkp
                  rw [hgetT]
              · intro k hk hr
                rw [hgetPre k _ hk] at hr ⊢
                have := hboundOld k hk hr
                omega)
          rw [hlen1, hassoc] at this
          rw [step]
          exact this
        · -- t runnable but not above the current maximum
          have hle : t.priority_level ≤ highest := by omega
          have step : select_go now (t :: rest) pre.length best highest =
              select_go now rest (pre.length + 1) best highest := by
            rw [select_go, if_neg (by simp [hready]), if_neg hdue, if_neg hsel]
          have := ih (pre ++ [t]) best highest
            (fun hb => by
              obtain ⟨hh, hall⟩ := h1 hb
              refine ⟨hh, ?_⟩
              intro k hk hr
              rw [hlen1] at hk
              rcases Nat.lt_or_ge k pre.length with hlt | hge
              · rw [hgetPre k _ hlt] at hr ⊢
                exact hall k hlt hr
              · have hkp : k = pre.length := by omega
                subst hkp
                rw [hgetT]
                omega)
            (fun j hb => by
              obtain ⟨hjl, hrun, hprio, hpos, hmax, hfirst⟩ := h2 j hb
              refine ⟨by omega, ?_, ?_, hpos, ?_, ?_⟩
              · rw [hgetPre j _ hjl]; exact hrun
              · rw [hgetPre j _ hjl]; exact hprio
              · intro k hk hr
                rw [hlen1] at hk
                rcases Nat.lt_or_ge k pre.length with hlt | hge
                · rw [hgetPre k _ hlt] at hr ⊢
                  exact hmax k hlt hr
                · have hkp : k = pre.length := by omega
                  subst hkp
                  rw [hgetT]
                  omega
              · intro k hk hr
                have hkl : k < pre.length := by omega
                rw [hgetPre k _ hkl] at hr ⊢
                exact hfirst k hk hr)
          rw [hlen1, hassoc] at this
          rw [step]
          exact this

/-- If every ready-and-due task is bounded by the running maximum, the scan
keeps best = none. -/
theorem select_go_none_of (now : Nat) :
    ∀ (ts : List task_control_block) (i highest : Nat),
    (∀ k, k < ts.length → runnable now (ts.getD k default_tcb) →
      (ts.getD k default_tcb).priority_level ≤ highest) →
    select_go now ts i none highest = none
  | [], _, _, _ => rfl
  | t :: rest, i, highest, h => by
    have htail : ∀ k, k < rest.length → runnable now (rest.getD k default_tcb) →
        (rest.getD k default_tcb).priority_level ≤ highest := by
      intro k hk hr
      exact h (k + 1) (by simpa using Nat.succ_lt_succ hk) hr
    by_cases hready : t.state ≠ task_state.ready
    · rw [select_go, if_pos hready]
      exact select_go_none_of now rest (i + 1) highest htail
    · push_neg at hready
      by_cases hdue : 0 < t.period_ms ∧ now < t.next_run_time
      · rw [select_go, if_neg (by simp [hready]), if_pos hdue]
        exact select_go_none_of now rest (i + 1) highest htail
      · have hrun_t : runnable now t := by
          refine ⟨hready, ?_⟩
          intro hp
          by_contra hlt
          exact hdue ⟨hp, by omega⟩
        have hb := h 0 (by simp) (by simpa using hrun_t)
        simp only [List.getD_cons_zero] at hb
        rw [select_go, if_neg (by simp [hready]), if_neg hdue,
          if_neg (by omega : ¬ highest < t.priority_level)]
        exact select_go_none_of now rest (i + 1) highest htail

/-- Claim C8 (amended): run() executes the first ready-and-due task of
maximal priority provided that priority is strictly above idle (a ready
idle-priority task is never selected); after execution a periodic task gets
next_run_time = now + period and becomes ready again, a one-shot task
becomes completed, and run_count is incremented; when nothing qualifies,
run() leaves the state unchanged and delays 1 ms. -/
theorem C8_scheduler_amended (now execDur : Nat) (tm : taskmaster)
    (hinit : tm.initialized = true) :
    (∀ i, select_task now tm.tasks = some i →
        i < tm.tasks.length ∧ runnable now (tm.tasks.getD i default_tcb) ∧
        0 < (tm.tasks.getD i default_tcb).priority_level ∧
        (∀ k, k < tm.tasks.length → runnable now (tm.tasks.getD k default_tcb) →
          (tm.tasks.getD k default_tcb).priority_level ≤
            (tm.tasks.getD i default_tcb).priority_level) ∧
        (∀ k, k < i → runnable now (tm.tasks.getD k default_tcb) →
          (tm.tasks.getD k default_tcb).priority_level <
            (tm.tasks.getD i default_tcb).priority_level)) ∧
    (select_task now tm.tasks = none ↔
      ∀ k, k < tm.tasks.length → runnable now (tm.tasks.getD k default_tcb) →
        (tm.tasks.getD k default_tcb).priority_level = 0) ∧
    (∀ i, select_task now tm.tasks = some i →
      (tm.tasks.getD i default_tcb).has_function = true →
      (taskmaster.run now execDur tm).2 = run_outcome.executed i ∧
      (0 < (tm.tasks.getD i default_tcb).period_ms →
        ((taskmaster.run now execDur tm).1.tasks.getD i default_tcb).next_run_time =
          now + (tm.tasks.getD i default_tcb).period_ms ∧
        ((taskmaster.run now execDur tm).1.tasks.getD i default_tcb).state =
          task_state.ready) ∧
      ((tm.tasks.getD i default_tcb).period_ms = 0 →
        ((taskmaster.run now execDur tm).1.tasks.getD i default_tcb).state =
          task_state.completed) ∧
      ((taskmaster.run now execDur tm).1.tasks.getD i default_tcb).run_count =
        ((tm.tasks.getD i default_tcb).run_count + 1) % 4294967296) ∧
    (select_task now tm.tasks = none →
      taskmaster.run now execDur tm = (tm, run_outcome.delayed)) := by
  have hspec := select_go_spec now tm.tasks [] none 0
    (fun _ => ⟨rfl, fun k hk => by simp at hk⟩)
    (fun j hb => by cases hb)
  simp only [List.nil_append, List.length_nil] at hspec
  have hsel_spec := hspec.1
  have hnone_spec := hspec.2
  refine ⟨?_, ⟨?_, ?_⟩, ?_, ?_⟩
  · intro i hi
    exact hsel_spec i hi
  · intro hn
    exact hnone_spec hn
  · intro hall
    have : select_go now tm.tasks 0 none 0 = none :=
      select_go_none_of now tm.tasks 0 0
        (fun k hk hr => by rw [hall k hk hr])
    exact this
  · intro i hi hfun
    obtain ⟨hil, _, _, _, _⟩ := hsel_spec i hi
    have hget : ∀ (a : task_control_block),
        ((tm.tasks.set i a).getD i default_tcb) = a := by
      intro a
      rw [List.getD_eq_getElem?_getD, List.getElem?_set_eq_of_lt a hil, Option.getD_some]
    unfold taskmaster.run
    rw [hi]
    simp only [hinit, hfun, hget, not_true, if_false, if_true, Bool.false_eq_true,
      not_false_eq_true, ite_true, ite_false]
    refine ⟨trivial, ?_, ?_, trivial⟩
    · intro hp
      simp [hp]
      simp only [← List.getD_eq_getElem?_getD]
      omega
    · intro hp
      simp [hp]
      simp only [← List.getD_eq_getElem?_getD]
      omega
  · intro hn
    unfold taskmaster.run
    rw [hn]
    simp [hinit]

/-- Counterexample to claim C8 as stated: a single ready one-shot task with
priority idle (0) is among the ready tasks of maximal priority, but run()
executes nothing and delays instead, leaving the task untouched. -/
theorem C8_counterexample :
    runnable 100
      ((⟨[⟨0, true, 0, task_state.ready, 0, 0, 0, 0, 0, 0, ⟨4294967295, 0, 0, 0, 0⟩⟩],
        true, 0⟩ : taskmaster).tasks.getD 0 default_tcb) ∧
    taskmaster.run 100 1
      ⟨[⟨0, true, 0, task_state.ready, 0, 0, 0, 0, 0, 0, ⟨4294967295, 0, 0, 0, 0⟩⟩],
        true, 0⟩ =
      (⟨[⟨0, true, 0, task_state.ready, 0, 0, 0, 0, 0, 0, ⟨4294967295, 0, 0, 0, 0⟩⟩],
        true, 0⟩, run_outcome.delayed) := by
  constructor
  · exact ⟨rfl, fun h => by simp at h⟩
  · rfl

/-- Witness for the amended C8: of two ready tasks with priorities 1 and 3
(the latter periodic and due), run() executes index 1. -/
theorem C8_scheduler_amended_witness :
    (⟨[⟨0, true, 1, task_state.ready, 0, 0, 0, 0, 0, 0, ⟨4294967295, 0, 0, 0, 0⟩⟩,
       ⟨1, true, 3, task_state.ready, 0, 50, 10, 0, 0, 0, ⟨4294967295, 0, 0, 0, 0⟩⟩],
      true, 0⟩ : taskmaster).initialized = true ∧
    (taskmaster.run 100 7
      ⟨[⟨0, true, 1, task_state.ready, 0, 0, 0, 0, 0, 0, ⟨4294967295, 0, 0, 0, 0⟩⟩,
        ⟨1, true, 3, task_state.ready, 0, 50, 10, 0, 0, 0, ⟨4294967295, 0, 0, 0, 0⟩⟩],
        true, 0⟩).2 = run_outcome.executed 1 :=
  ⟨rfl,
    ((C8_scheduler_amended 100 7
      ⟨[⟨0, true, 1, task_state.ready, 0, 0, 0, 0, 0, 0, ⟨4294967295, 0, 0, 0, 0⟩⟩,
        ⟨1, true, 3, task_state.ready, 0, 50, 10, 0, 0, 0, ⟨4294967295, 0, 0, 0, 0⟩⟩],
        true, 0⟩ rfl).2.2.1 1 (by decide) rfl).1⟩

/-! ### Mailbox queue observations -/

theorem joinHigh_nil : joinHigh [] = [] := rfl

theorem joinHigh_cons (e : topic_queue_entry) (rest : List topic_queue_entry) :
    joinHigh (e :: rest) = e.high_queue ++ joinHigh rest := by
  simp [joinHigh]

theorem joinNormal_nil : joinNormal [] = [] := rfl

theorem joinNormal_cons (e : topic_queue_entry) (rest : List topic_queue_entry) :
    joinNormal (e :: rest) = e.normal_queue ++ joinNormal rest := by
  simp [joinNormal]

theorem joinHigh_append (l1 l2 : List topic_queue_entry) :
    joinHigh (l1 ++ l2) = joinHigh l1 ++ joinHigh l2 := by
  simp [joinHigh]

theorem joinNormal_append (l1 l2 : List topic_queue_entry) :
    joinNormal (l1 ++ l2) = joinNormal l1 ++ joinNormal l2 := by
  simp [joinNormal]

theorem popFirstHigh_none_iff (tqs : List topic_queue_entry) :
    popFirstHigh tqs = none ↔ joinHigh tqs = [] := by
  induction tqs with
  | nil => simp [popFirstHigh, joinHigh_nil]
  | cons e rest ih =>
    cases he : e.high_queue with
    | nil => simp [popFirstHigh, he, joinHigh_cons, ih]
    | cons m tl => simp [popFirstHigh, he, joinHigh_cons]

theorem popFirstNormal_none_iff (tqs : List topic_queue_entry) :
    popFirstNormal tqs = none ↔ joinNormal tqs = [] := by
  induction tqs with
  | nil => simp [popFirstNormal, joinNormal_nil]
  | cons e rest ih =>
    cases he : e.normal_queue with
    | nil => simp [popFirstNormal, he, joinNormal_cons, ih]
    | cons m tl => simp [popFirstNormal, he, joinNormal_cons]

theorem popFirstHigh_spec (tqs : List topic_queue_entry) :
    ∀ m tqs', popFirstHigh tqs = some (m, tqs') →
      joinHigh tqs = m :: joinHigh tqs' ∧ joinNormal tqs = joinNormal tqs' ∧
      tqs'.length = tqs.length := by
  induction tqs with
  | nil => intro m tqs' h; simp [popFirstHigh] at h
  | cons e rest ih =>
    intro m tqs' h
    cases he : e.high_queue with
    | nil =>
      simp only [popFirstHigh, he, Option.map_eq_some'] at h
      obtain ⟨⟨m0, r'⟩, hrest, heq⟩ := h
      simp only [Prod.mk.injEq] at heq
      obtain ⟨hm, ht⟩ := heq
      subst hm
      subst ht
      obtain ⟨h1, h2, h3⟩ := ih _ r' hrest
      refine ⟨?_, ?_, by simp [h3]⟩
      · rw [joinHigh_cons, joinHigh_cons, he, h1]
        simp
      · rw [joinNormal_cons, joinNormal_cons, h2]
    | cons m0 tl =>
      simp only [popFirstHigh, he, Option.some.injEq, Prod.mk.injEq] at h
      obtain ⟨hm, ht⟩ := h
      subst hm
      subst ht
      refine ⟨?_, ?_, by simp⟩
      · rw [joinHigh_cons, joinHigh_cons, he]
        simp
      · rw [joinNormal_cons, joinNormal_cons]

theorem popFirstNormal_spec (tqs : List topic_queue_entry) :
    ∀ m tqs', popFirstNormal tqs = some (m, tqs') →
      joinNormal tqs = m :: joinNormal tqs' ∧ joinHigh tqs = joinHigh tqs' ∧
      tqs'.length = tqs.length := by
  induction tqs with
  | nil => intro m tqs' h; simp [popFirstNormal] at h
  | cons e rest ih =>
    intro m tqs' h
    cases he : e.normal_queue with
    | nil =>
      simp only [popFirstNormal, he, Option.map_eq_some'] at h
      obtain ⟨⟨m0, r'⟩, hrest, heq⟩ := h
      simp only [Prod.mk.injEq] at heq
      obtain ⟨hm, ht⟩ := heq
      subst hm
      subst ht
      obtain ⟨h1, h2, h3⟩ := ih _ r' hrest
      refine ⟨?_, ?_, by simp [h3]⟩
      · rw [joinNormal_cons, joinNormal_cons, he, h1]
        simp
      · rw [joinHigh_cons, joinHigh_cons, h2]
    | cons m0 tl =>
      simp only [popFirstNormal, he, Option.some.injEq, Prod.mk.injEq] at h
      obtain ⟨hm, ht⟩ := h
      subst hm
      subst ht
      refine ⟨?_, ?_, by simp⟩
      · rw [joinNormal_cons, joinNormal_cons, he]
        simp
      · rw [joinHigh_cons, joinHigh_cons]

theorem is_empty_iff (mb : task_mailbox) :
    mb.is_empty_unlocked = true ↔
      joinHigh mb.topic_queues = [] ∧ joinNormal mb.topic_queues = [] := by
  unfold task_mailbox.is_empty_unlocked
  induction mb.topic_queues with
  | nil => simp [joinHigh_nil, joinNormal_nil]
  | cons e rest ih =>
    simp only [List.all_cons, joinHigh_cons, joinNormal_cons, Bool.and_eq_true,
      List.append_eq_nil, List.isEmpty_iff] at *
    constructor
    · rintro ⟨⟨h1, h2⟩, h3⟩
      obtain ⟨h4, h5⟩ := ih.mp h3
      exact ⟨⟨h1, h4⟩, h2, h5⟩
    · rintro ⟨⟨h1, h4⟩, h2, h5⟩
      exact ⟨⟨h1, h2⟩, ih.mpr ⟨h4, h5⟩⟩

theorem total_size_eq (mb : task_mailbox) :
    mb.total_size = (joinHigh mb.topic_queues).length + (joinNormal mb.topic_queues).length := by
  unfold task_mailbox.total_size
  induction mb.topic_queues with
  | nil => simp [joinHigh_nil, joinNormal_nil]
  | cons e rest ih =>
    simp only [List.map_cons, List.sum_cons, joinHigh_cons, joinNormal_cons,
      List.length_append] at *
    omega

/-- Claim C3 (amended): draining a mailbox by repeated receive() yields all
high sub-queue entries (in topic-slot registration order, FIFO within each
slot) strictly before any normal sub-queue entry.  Urgency at enqueue time
only guarantees this when the message landed in the high sub-queue; an
urgent message that spilled into the normal sub-queue is delivered in
normal FIFO order. -/
theorem C3_receive_drains_high_first (mb : task_mailbox) :
    mb.drain mb.total_size =
      joinHigh mb.topic_queues ++ joinNormal mb.topic_queues := by
  suffices h : ∀ (n : Nat) (mb : task_mailbox), mb.total_size = n →
      mb.drain n = joinHigh mb.topic_queues ++ joinNormal mb.topic_queues by
    exact h mb.total_size mb rfl
  intro n
  induction n with
  | zero =>
    intro mb h0
    rw [total_size_eq] at h0
    have hH : joinHigh mb.topic_queues = [] := by
      have := List.length_eq_zero.mp (by omega : (joinHigh mb.topic_queues).length = 0)
      exact this
    have hN : joinNormal mb.topic_queues = [] := by
      have := List.length_eq_zero.mp (by omega : (joinNormal mb.topic_queues).length = 0)
      exact this
    rw [hH, hN]
    rfl
  | succ n ih =>
    intro mb hs
    have hne : mb.is_empty_unlocked = false := by
      by_contra hmm
      have hT : mb.is_empty_unlocked = true := by
        cases h : mb.is_empty_unlocked
        · exact absurd h hmm
        · rfl
      obtain ⟨h1, h2⟩ := (is_empty_iff mb).mp hT
      rw [total_size_eq, h1, h2] at hs
      simp at hs
    unfold task_mailbox.drain
    unfold task_mailbox.receive
    rw [hne]
    simp only [Bool.false_eq_true, if_false]
    cases hH : popFirstHigh mb.topic_queues with
    | some p =>
      obtain ⟨m, tqs'⟩ := p
      obtain ⟨hjh, hjn, _⟩ := popFirstHigh_spec mb.topic_queues m tqs' hH
      have hsz : ({ mb with topic_queues := tqs', received_count := (mb.received_count + 1) % 4294967296 } : task_mailbox).total_size = n := by
        rw [total_size_eq] at hs ⊢
        simp only at hs ⊢
        rw [hjh, hjn] at hs
        simp at hs
        omega
      have := ih _ hsz
      simp only at this
      dsimp only
      rw [this, hjh, hjn]
      simp
    | none =>
      have hjh : joinHigh mb.topic_queues = [] := (popFirstHigh_none_iff _).mp hH
      cases hN : popFirstNormal mb.topic_queues with
      | none =>
        have hjn : joinNormal mb.topic_queues = [] := (popFirstNormal_none_iff _).mp hN
        rw [total_size_eq, hjh, hjn] at hs
        simp at hs
      | some p =>
        obtain ⟨m, tqs'⟩ := p
        obtain ⟨hjn, hjh2, _⟩ := popFirstNormal_spec mb.topic_queues m tqs' hN
        have hsz : ({ mb with topic_queues := tqs', received_count := (mb.received_count + 1) % 4294967296 } : task_mailbox).total_size = n := by
          rw [total_size_eq] at hs ⊢
          simp only at hs ⊢
          rw [hjn, hjh2] at hs
          simp at hs
          omega
        have := ih _ hsz
        simp only at this
        dsimp only
        rw [this, hjh, hjn, ← hjh2, hjh]
        simp

/-- Counterexample to claim C3 as stated: with one topic slot (high
capacity 1, normal capacity 3), after sending urgent U1, normal N1, N2
and urgent U2, the send of U2 finds the high sub-queue full, drops N1, and
spills U2 into the normal sub-queue behind N2; the receive order is then
U1, N2, U2 — the urgent U2 is returned after the normal N2 of the same
topic, although both were present when the scan started. -/
theorem C3_counterexample :
    msg_is_urgent ⟨⟨7, 0, 0, 0, 4, 1, 0, 4⟩, 102⟩ = true ∧
    msg_is_urgent ⟨⟨7, 0, 0, 0, 0, 1, 0, 3⟩, 202⟩ = false ∧
    (⟨⟨7, 0, 0, 0, 4, 1, 0, 4⟩, 102⟩ : message).header.type_ =
      (⟨⟨7, 0, 0, 0, 0, 1, 0, 3⟩, 202⟩ : message).header.type_ ∧
    (⟨⟨7, 0, 0, 0, 4, 1, 0, 4⟩, 102⟩ : message) ∈
      joinNormal ((task_mailbox.send ⟨1, 1, 3⟩ (task_mailbox.send ⟨1, 1, 3⟩
        (task_mailbox.send ⟨1, 1, 3⟩ (task_mailbox.send ⟨1, 1, 3⟩
          ⟨0, false, 4, 0, 0, true, true, []⟩ ⟨⟨7, 0, 0, 0, 4, 1, 0, 1⟩, 101⟩).2
          ⟨⟨7, 0, 0, 0, 0, 1, 0, 2⟩, 201⟩).2
          ⟨⟨7, 0, 0, 0, 0, 1, 0, 3⟩, 202⟩).2
          ⟨⟨7, 0, 0, 0, 4, 1, 0, 4⟩, 102⟩).2.topic_queues) ∧
    (task_mailbox.send ⟨1, 1, 3⟩ (task_mailbox.send ⟨1, 1, 3⟩
        (task_mailbox.send ⟨1, 1, 3⟩ (task_mailbox.send ⟨1, 1, 3⟩
          ⟨0, false, 4, 0, 0, true, true, []⟩ ⟨⟨7, 0, 0, 0, 4, 1, 0, 1⟩, 101⟩).2
          ⟨⟨7, 0, 0, 0, 0, 1, 0, 2⟩, 201⟩).2
          ⟨⟨7, 0, 0, 0, 0, 1, 0, 3⟩, 202⟩).2
          ⟨⟨7, 0, 0, 0, 4, 1, 0, 4⟩, 102⟩).2.drain 3 =
      [⟨⟨7, 0, 0, 0, 4, 1, 0, 1⟩, 101⟩, ⟨⟨7, 0, 0, 0, 0, 1, 0, 3⟩, 202⟩,
        ⟨⟨7, 0, 0, 0, 4, 1, 0, 4⟩, 102⟩] := by
  refine ⟨by decide, by decide, by decide, by decide, by decide⟩

/-! ### Lemmas on setting a topic slot -/

theorem getD_set_self {α : Type} (l : List α) (i : Nat) (a d : α) (h : i < l.length) :
    (l.set i a).getD i d = a := by
  induction l generalizing i with
  | nil => simp at h
  | cons x t ih =>
    cases i with
    | zero => rfl
    | succ n =>
      simp only [List.set_cons_succ, List.getD_cons_succ]
      exact ih n (by simpa using h)

theorem mem_joinHigh_getD (tqs : List topic_queue_entry) (i : Nat)
    (d : topic_queue_entry) (x : message) (hi : i < tqs.length)
    (hx : x ∈ (tqs.getD i d).high_queue) : x ∈ joinHigh tqs := by
  induction tqs generalizing i with
  | nil => simp at hi
  | cons e rest ih =>
    cases i with
    | zero =>
      rw [joinHigh_cons]
      exact List.mem_append_left _ (by simpa using hx)
    | succ n =>
      rw [joinHigh_cons]
      exact List.mem_append_right _ (ih n (by simpa using hi) (by simpa using hx))

theorem mem_joinNormal_getD (tqs : List topic_queue_entry) (i : Nat)
    (d : topic_queue_entry) (x : message) (hi : i < tqs.length)
    (hx : x ∈ (tqs.getD i d).normal_queue) : x ∈ joinNormal tqs := by
  induction tqs generalizing i with
  | nil => simp at hi
  | cons e rest ih =>
    cases i with
    | zero =>
      rw [joinNormal_cons]
      exact List.mem_append_left _ (by simpa using hx)
    | succ n =>
      rw [joinNormal_cons]
      exact List.mem_append_right _ (ih n (by simpa using hi) (by simpa using hx))

theorem mem_joinHigh_set (tqs : List topic_queue_entry) (i : Nat)
    (e' : topic_queue_entry) (x : message) (hx : x ∈ joinHigh (tqs.set i e')) :
    x ∈ e'.high_queue ∨ x ∈ joinHigh tqs := by
  induction tqs generalizing i with
  | nil => simp [joinHigh_nil] at hx
  | cons e rest ih =>
    cases i with
    | zero =>
      rw [List.set_cons_zero, joinHigh_cons] at hx
      rcases List.mem_append.mp hx with h | h
      · exact Or.inl h
      · exact Or.inr (by rw [joinHigh_cons]; exact List.mem_append_right _ h)
    | succ n =>
      rw [List.set_cons_succ, joinHigh_cons] at hx
      rcases List.mem_append.mp hx with h | h
      · exact Or.inr (by rw [joinHigh_cons]; exact List.mem_append_left _ h)
      · rcases ih n h with h2 | h2
        · exact Or.inl h2
        · exact Or.inr (by rw [joinHigh_cons]; exact List.mem_append_right _ h2)

theorem mem_joinNormal_set (tqs : List topic_queue_entry) (i : Nat)
    (e' : topic_queue_entry) (x : message) (hx : x ∈ joinNormal (tqs.set i e')) :
    x ∈ e'.normal_queue ∨ x ∈ joinNormal tqs := by
  induction tqs generalizing i with
  | nil => simp [joinNormal_nil] at hx
  | cons e rest ih =>
    cases i with
    | zero =>
      rw [List.set_cons_zero, joinNormal_cons] at hx
      rcases List.mem_append.mp hx with h | h
      · exact Or.inl h
      · exact Or.inr (by rw [joinNormal_cons]; exact List.mem_append_right _ h)
    | succ n =>
      rw [List.set_cons_succ, joinNormal_cons] at hx
      rcases List.mem_append.mp hx with h | h
      · exact Or.inr (by rw [joinNormal_cons]; exact List.mem_append_left _ h)
      · rcases ih n h with h2 | h2
        · exact Or.inl h2
        · exact Or.inr (by rw [joinNormal_cons]; exact List.mem_append_right _ h2)

theorem map_sum_set (tqs : List topic_queue_entry) (i : Nat)
    (e' : topic_queue_entry) (h : i < tqs.length) :
    ((tqs.set i e').map (fun tq => tq.high_queue.length + tq.normal_queue.length)).sum +
      ((tqs.getD i task_mailbox.default_entry).high_queue.length +
        (tqs.getD i task_mailbox.default_entry).normal_queue.length) =
    (tqs.map (fun tq => tq.high_queue.length + tq.normal_queue.length)).sum +
      (e'.high_queue.length + e'.normal_queue.length) := by
  induction tqs generalizing i with
  | nil => simp at h
  | cons e rest ih =>
    cases i with
    | zero =>
      simp only [List.set_cons_zero, List.map_cons, List.sum_cons, List.getD_cons_zero]
      omega
    | succ n =>
      simp only [List.set_cons_succ, List.map_cons, List.sum_cons, List.getD_cons_succ]
      have := ih n (by simpa using h)
      omega

theorem total_size_set (mb : task_mailbox) (i : Nat) (e' : topic_queue_entry)
    (h : i < mb.topic_queues.length) :
    ({ mb with topic_queues := mb.topic_queues.set i e' } : task_mailbox).total_size +
      ((mb.topic_queues.getD i task_mailbox.default_entry).high_queue.length +
        (mb.topic_queues.getD i task_mailbox.default_entry).normal_queue.length) =
    mb.total_size + (e'.high_queue.length + e'.normal_queue.length) := by
  unfold task_mailbox.total_size
  simp only
  exact map_sum_set mb.topic_queues i e' h

/-- The push phase: on success it adds exactly the new message (net size
+1, message present, no counter change, no other message introduced); on
failure the mailbox is returned unchanged. -/
theorem send_push_spec (cfg : mailbox_config) (mb : task_mailbox) (idx : Nat)
    (msg : message) (u w : Bool) (hidx : idx < mb.topic_queues.length) :
    (∀ b, (task_mailbox.send_push cfg mb idx msg u w).1 = Except.ok b →
      (task_mailbox.send_push cfg mb idx msg u w).2.total_size = mb.total_size + 1 ∧
      (msg ∈ joinHigh (task_mailbox.send_push cfg mb idx msg u w).2.topic_queues ∨
        msg ∈ joinNormal (task_mailbox.send_push cfg mb idx msg u w).2.topic_queues) ∧
      (task_mailbox.send_push cfg mb idx msg u w).2.dropped_overflow =
        mb.dropped_overflow ∧
      (∀ x, (x ∈ joinHigh (task_mailbox.send_push cfg mb idx msg u w).2.topic_queues ∨
          x ∈ joinNormal (task_mailbox.send_push cfg mb idx msg u w).2.topic_queues) →
        (x ∈ joinHigh mb.topic_queues ∨ x ∈ joinNormal mb.topic_queues) ∨ x = msg)) ∧
    ((task_mailbox.send_push cfg mb idx msg u w).1 =
        Except.error ErrorCode.out_of_memory →
      (task_mailbox.send_push cfg mb idx msg u w).2 = mb) ∧
    (∀ e, (task_mailbox.send_push cfg mb idx msg u w).1 = Except.error e →
      e = ErrorCode.out_of_memory) := by
  have hsetlen : ∀ (e' : topic_queue_entry), idx < (mb.topic_queues.set idx e').length := by
    intro e'
    simpa using hidx
  have hpushH : ∀ (tq e' : topic_queue_entry),
      tq = mb.topic_queues.getD idx task_mailbox.default_entry →
      e' = { tq with high_queue := tq.high_queue ++ [msg] } →
      ({ mb with topic_queues := mb.topic_queues.set idx e' } : task_mailbox).total_size =
        mb.total_size + 1 ∧
      (msg ∈ joinHigh (mb.topic_queues.set idx e') ∨
        msg ∈ joinNormal (mb.topic_queues.set idx e')) ∧
      (∀ x, (x ∈ joinHigh (mb.topic_queues.set idx e') ∨
          x ∈ joinNormal (mb.topic_queues.set idx e')) →
        (x ∈ joinHigh mb.topic_queues ∨ x ∈ joinNormal mb.topic_queues) ∨ x = msg) := by
    intro tq e' htq he'
    subst he'
    subst htq
    refine ⟨?_, ?_, ?_⟩
    · have := total_size_set mb idx
        { mb.topic_queues.getD idx task_mailbox.default_entry with
          high_queue :=
            (mb.topic_queues.getD idx task_mailbox.default_entry).high_queue ++ [msg] }
        hidx
      simp at this ⊢
      omega
    · left
      refine mem_joinHigh_getD _ idx task_mailbox.default_entry msg (hsetlen _) ?_
      rw [getD_set_self _ _ _ _ hidx]
      simp
    · intro x hx
      rcases hx with hx | hx
      · rcases mem_joinHigh_set _ _ _ _ hx with h2 | h2
        · simp only at h2
          rcases List.mem_append.mp h2 with h3 | h3
          · exact Or.inl (Or.inl (mem_joinHigh_getD _ idx _ x hidx h3))
          · exact Or.inr (by simpa using h3)
        · exact Or.inl (Or.inl h2)
      · rcases mem_joinNormal_set _ _ _ _ hx with h2 | h2
        · simp only at h2
          exact Or.inl (Or.inr (mem_joinNormal_getD _ idx _ x hidx h2))
        · exact Or.inl (Or.inr h2)
  have hpushN : ∀ (tq e' : topic_queue_entry),
      tq = mb.topic_queues.getD idx task_mailbox.default_entry →
      e' = { tq with normal_queue := tq.normal_queue ++ [msg] } →
      ({ mb with topic_queues := mb.topic_queues.set idx e' } : task_mailbox).total_size =
        mb.total_size + 1 ∧
      (msg ∈ joinHigh (mb.topic_queues.set idx e') ∨
        msg ∈ joinNormal (mb.topic_queues.set idx e')) ∧
      (∀ x, (x ∈ joinHigh (mb.topic_queues.set idx e') ∨
          x ∈ joinNormal (mb.topic_queues.set idx e')) →
        (x ∈ joinHigh mb.topic_queues ∨ x ∈ joinNormal mb.topic_queues) ∨ x = msg) := by
    intro tq e' htq he'
    subst he'
    subst htq
    refine ⟨?_, ?_, ?_⟩
    · have := total_size_set mb idx
        { mb.topic_queues.getD idx task_mailbox.default_entry with
          normal_queue :=
            (mb.topic_queues.getD idx task_mailbox.default_entry).normal_queue ++ [msg] }
        hidx
      simp at this ⊢
      omega
    · right
      refine mem_joinNormal_getD _ idx task_mailbox.default_entry msg (hsetlen _) ?_
      rw [getD_set_self _ _ _ _ hidx]
      simp
    · intro x hx
      rcases hx with hx | hx
      · rcases mem_joinHigh_set _ _ _ _ hx with h2 | h2
        · simp only at h2
          exact Or.inl (Or.inl (mem_joinHigh_getD _ idx _ x hidx h2))
        · exact Or.inl (Or.inl h2)
      · rcases mem_joinNormal_set _ _ _ _ hx with h2 | h2
        · simp only at h2
          rcases List.mem_append.mp h2 with h3 | h3
          · exact Or.inl (Or.inr (mem_joinNormal_getD _ idx _ x hidx h3))
          · exact Or.inr (by simpa using h3)
        · exact Or.inl (Or.inr h2)
  unfold task_mailbox.send_push
  cases u with
  | true =>
    by_cases h1 : (mb.topic_queues.getD idx task_mailbox.default_entry).high_queue.length <
        cfg.high_capacity
    · simp only [if_pos h1, if_true]
      obtain ⟨ha, hb, hc⟩ := hpushH _ _ rfl rfl
      exact ⟨fun b _ => ⟨ha, hb, by trivial, hc⟩, fun h => by simp at h, fun e he => by simp at he⟩
    · by_cases h2 : (mb.topic_queues.getD idx task_mailbox.default_entry).normal_queue.length <
          cfg.normal_capacity
      · simp only [if_neg h1, if_pos h2, if_true]
        obtain ⟨ha, hb, hc⟩ := hpushN _ _ rfl rfl
        exact ⟨fun b _ => ⟨ha, hb, by trivial, hc⟩, fun h => by simp at h, fun e he => by simp at he⟩
      · simp only [if_neg h1, if_neg h2]
        exact ⟨fun b hb => by simp at hb, fun _ => rfl, fun e he => by simpa using he.symm⟩
  | false =>
    by_cases h1 : (mb.topic_queues.getD idx task_mailbox.default_entry).normal_queue.length <
        cfg.normal_capacity
    · simp only [if_pos h1]
      obtain ⟨ha, hb, hc⟩ := hpushN _ _ rfl rfl
      exact ⟨fun b _ => ⟨ha, hb, by trivial, hc⟩, fun h => by simp at h, fun e he => by simp at he⟩
    · by_cases h2 : (mb.topic_queues.getD idx task_mailbox.default_entry).high_queue.length <
          cfg.high_capacity
      · simp only [if_neg h1, if_pos h2]
        obtain ⟨ha, hb, hc⟩ := hpushH _ _ rfl rfl
        exact ⟨fun b _ => ⟨ha, hb, by trivial, hc⟩, fun h => by simp at h, fun e he => by simp at he⟩
      · simp only [if_neg h1, if_neg h2]
        exact ⟨fun b hb => by simp at hb, fun _ => rfl, fun e he => by simpa using he.symm⟩

/-- drop_one_any: drops the head of the first non-empty normal sub-queue in
slot order, else the head of the first non-empty high sub-queue; fails only
on an empty mailbox.  Counters, policies and the slot count are untouched. -/
theorem drop_one_any_spec (mb : task_mailbox) :
    (mb.drop_one_any = none ↔
      joinHigh mb.topic_queues = [] ∧ joinNormal mb.topic_queues = []) ∧
    (∀ mb2, mb.drop_one_any = some mb2 →
      mb2.dropped_overflow = mb.dropped_overflow ∧
      mb2.depth_limit = mb.depth_limit ∧
      mb2.overflow_drop_oldest = mb.overflow_drop_oldest ∧
      mb2.notify_on_empty_only = mb.notify_on_empty_only ∧
      mb2.topic_queues.length = mb.topic_queues.length ∧
      ((joinNormal mb.topic_queues ≠ [] →
        joinNormal mb2.topic_queues = (joinNormal mb.topic_queues).tail ∧
        joinHigh mb2.topic_queues = joinHigh mb.topic_queues) ∧
       (joinNormal mb.topic_queues = [] →
        joinHigh mb2.topic_queues = (joinHigh mb.topic_queues).tail ∧
        joinNormal mb2.topic_queues = []))) := by
  constructor
  · unfold task_mailbox.drop_one_any
    cases hN : popFirstNormal mb.topic_queues with
    | some p =>
      obtain ⟨m, tqs'⟩ := p
      simp only
      constructor
      · intro h
        simp at h
      · intro ⟨hh, hn⟩
        rw [(popFirstNormal_none_iff _).mpr hn] at hN
        simp at hN
    | none =>
      have hjn := (popFirstNormal_none_iff _).mp hN
      cases hH : popFirstHigh mb.topic_queues with
      | some p =>
        obtain ⟨m, tqs'⟩ := p
        simp only
        constructor
        · intro h
          simp at h
        · intro ⟨hh, hn⟩
          rw [(popFirstHigh_none_iff _).mpr hh] at hH
          simp at hH
      | none =>
        have hjh := (popFirstHigh_none_iff _).mp hH
        simp [hjh, hjn]
  · intro mb2 h
    unfold task_mailbox.drop_one_any at h
    cases hN : popFirstNormal mb.topic_queues with
    | some p =>
      obtain ⟨m, tqs'⟩ := p
      rw [hN] at h
      simp only [Option.some.injEq] at h
      subst h
      obtain ⟨h1, h2, h3⟩ := popFirstNormal_spec mb.topic_queues m tqs' hN
      refine ⟨rfl, rfl, rfl, rfl, h3, ?_, ?_⟩
      · intro _
        constructor
        · simp only
          rw [h1]
          rfl
        · simp only
          rw [h2]
      · intro hcon
        rw [hcon] at h1
        simp at h1
    | none =>
      rw [hN] at h
      have hjn := (popFirstNormal_none_iff _).mp hN
      cases hH : popFirstHigh mb.topic_queues with
      | none =>
        rw [hH] at h
        simp at h
      | some p =>
        obtain ⟨m, tqs'⟩ := p
        rw [hH] at h
        simp only [Option.some.injEq] at h
        subst h
        obtain ⟨h1, h2, h3⟩ := popFirstHigh_spec mb.topic_queues m tqs' hH
        refine ⟨rfl, rfl, rfl, rfl, h3, ?_, ?_⟩
        · intro hcon
          exact absurd hjn hcon
        · intro _
          constructor
          · simp only
            rw [h1]
            rfl
          · simp only
            rw [← h2, hjn]

theorem findIdx?_lt_length {α : Type} (l : List α) (p : α → Bool) (i : Nat)
    (h : l.findIdx? p = some i) : i < l.length := by
  induction l generalizing i with
  | nil => simp at h
  | cons x t ih =>
    rw [List.findIdx?_cons] at h
    by_cases hp : p x
    · simp [hp] at h
      simp only [List.length_cons]
      omega
    · simp [hp] at h
      obtain ⟨j, hj, hij⟩ := h
      have := ih j hj
      simp only [List.length_cons]
      omega

/-- get_or_create_topic preserves the queue contents and all counters and
policies, and returns an in-range slot index for the topic. -/
theorem get_or_create_topic_spec (cfg : mailbox_config) (mb : task_mailbox)
    (t : Nat) (idx : Nat) (mb1 : task_mailbox)
    (h : mb.get_or_create_topic cfg t = some (idx, mb1)) :
    joinHigh mb1.topic_queues = joinHigh mb.topic_queues ∧
    joinNormal mb1.topic_queues = joinNormal mb.topic_queues ∧
    idx < mb1.topic_queues.length ∧
    mb1.depth_limit = mb.depth_limit ∧
    mb1.dropped_overflow = mb.dropped_overflow ∧
    mb1.overflow_drop_oldest = mb.overflow_drop_oldest ∧
    mb1.notify_on_empty_only = mb.notify_on_empty_only ∧
    mb1.total_size = mb.total_size := by
  unfold task_mailbox.get_or_create_topic at h
  cases hf : mb.find_topic_index t with
  | some i =>
    rw [hf] at h
    simp only [Option.some.injEq, Prod.mk.injEq] at h
    obtain ⟨hi, hmb⟩ := h
    subst hmb
    have hlt : i < mb.topic_queues.length := findIdx?_lt_length _ _ i hf
    rw [← hi]
    exact ⟨rfl, rfl, hlt, rfl, rfl, rfl, rfl, rfl⟩
  | none =>
    rw [hf] at h
    by_cases hfull : cfg.topic_slots ≤ mb.topic_queues.length
    · rw [if_pos hfull] at h
      simp at h
    · rw [if_neg hfull] at h
      simp only [Option.some.injEq, Prod.mk.injEq] at h
      obtain ⟨hi, hmb⟩ := h
      subst hi
      subst hmb
      refine ⟨?_, ?_, by simp, rfl, rfl, rfl, rfl, ?_⟩
      · simp [joinHigh_append, joinHigh_cons, joinHigh_nil]
      · simp [joinNormal_append, joinNormal_cons, joinNormal_nil]
      · rw [total_size_eq, total_size_eq]
        simp [joinHigh_append, joinNormal_append, joinHigh_cons, joinNormal_cons,
          joinHigh_nil, joinNormal_nil]

/-- Claim C2 (amended): on overflow (target sub-queue full or depth limit
reached, with the topic slot available): (a) a persistent message is
refused with out_of_memory and nothing is dropped; (c) with drop-oldest
disabled the message is refused with out_of_memory and nothing is dropped;
(b) with drop-oldest enabled and the mailbox non-empty, exactly one queued
message is removed — the head of the first non-empty normal sub-queue
across topic slots, else the head of the first non-empty high sub-queue —
dropped_overflow is incremented, and then the push is attempted: on
success the net size is unchanged and the new message is queued, but if
both sub-queues of the target topic are still full the send returns
out_of_memory with the dropped message not restored (net size -1). -/
theorem C2_mailbox_overflow_amended (cfg : mailbox_config) (mb : task_mailbox)
    (msg : message) (idx : Nat) (mb1 : task_mailbox)
    (hslot : mb.get_or_create_topic cfg msg.header.type_ = some (idx, mb1))
    (hover :
      (if msg_is_urgent msg = true then
        cfg.high_capacity ≤
          (mb1.topic_queues.getD idx task_mailbox.default_entry).high_queue.length
      else
        cfg.normal_capacity ≤
          (mb1.topic_queues.getD idx task_mailbox.default_entry).normal_queue.length) ∨
      mb.depth_limit ≤ mb.total_size) :
    (msg_is_persistent msg = true →
      (task_mailbox.send cfg mb msg).1 = Except.error ErrorCode.out_of_memory ∧
      (task_mailbox.send cfg mb msg).2.dropped_overflow = mb.dropped_overflow ∧
      (task_mailbox.send cfg mb msg).2.total_size = mb.total_size) ∧
    (mb.overflow_drop_oldest = false →
      (task_mailbox.send cfg mb msg).1 = Except.error ErrorCode.out_of_memory ∧
      (task_mailbox.send cfg mb msg).2.dropped_overflow = mb.dropped_overflow ∧
      (task_mailbox.send cfg mb msg).2.total_size = mb.total_size) ∧
    (msg_is_persistent msg = false → mb.overflow_drop_oldest = true →
      mb.is_empty_unlocked = false →
      (task_mailbox.send cfg mb msg).2.dropped_overflow =
        (mb.dropped_overflow + 1) % 4294967296 ∧
      (∃ mb2, mb1.drop_one_any = some mb2 ∧
        (joinNormal mb.topic_queues ≠ [] →
          joinNormal mb2.topic_queues = (joinNormal mb.topic_queues).tail ∧
          joinHigh mb2.topic_queues = joinHigh mb.topic_queues) ∧
        (joinNormal mb.topic_queues = [] →
          joinHigh mb2.topic_queues = (joinHigh mb.topic_queues).tail ∧
          joinNormal mb2.topic_queues = [])) ∧
      (∀ b, (task_mailbox.send cfg mb msg).1 = Except.ok b →
        (task_mailbox.send cfg mb msg).2.total_size = mb.total_size ∧
        msg ∈ joinHigh (task_mailbox.send cfg mb msg).2.topic_queues ++
          joinNormal (task_mailbox.send cfg mb msg).2.topic_queues) ∧
      ((task_mailbox.send cfg mb msg).1 = Except.error ErrorCode.out_of_memory →
        (task_mailbox.send cfg mb msg).2.total_size + 1 = mb.total_size)) := by
  obtain ⟨hJH, hJN, hidx, hdep, hdrop, hpol, hnot, htot⟩ :=
    get_or_create_topic_spec cfg mb msg.header.type_ idx mb1 hslot
  have hcond : ((if msg_is_urgent msg = true then
        decide (cfg.high_capacity ≤
          (mb1.topic_queues.getD idx task_mailbox.default_entry).high_queue.length)
      else
        decide (cfg.normal_capacity ≤
          (mb1.topic_queues.getD idx task_mailbox.default_entry).normal_queue.length)) ||
      decide (mb.depth_limit ≤ mb.total_size)) = true := by
    simp only [Bool.or_eq_true, decide_eq_true_eq]
    rcases hover with hov | hov
    · left
      by_cases hu : msg_is_urgent msg = true
      · rw [if_pos hu] at hov ⊢
        exact decide_eq_true hov
      · rw [if_neg hu] at hov ⊢
        exact decide_eq_true hov
    · right
      exact hov
  refine ⟨?_, ?_, ?_⟩
  · intro hpers
    unfold task_mailbox.send
    rw [hslot]
    dsimp only
    rw [if_pos hcond, if_neg (fun hc => hc.1 hpers)]
    exact ⟨rfl, hdrop, htot⟩
  · intro hdo
    unfold task_mailbox.send
    rw [hslot]
    dsimp only
    rw [if_pos hcond, if_neg (fun hc => by
      have h2 := hc.2
      rw [hpol, hdo] at h2
      simp at h2)]
    exact ⟨rfl, hdrop, htot⟩
  · intro hpers hdo hne
    have hne1 : ¬(joinHigh mb.topic_queues = [] ∧ joinNormal mb.topic_queues = []) := by
      intro hc
      have := (is_empty_iff mb).mpr hc
      rw [hne] at this
      simp at this
    have htotpos : 1 ≤ mb.total_size := by
      rw [total_size_eq]
      rcases Classical.em (joinHigh mb.topic_queues = []) with h | h
      · have : joinNormal mb.topic_queues ≠ [] := fun h2 => hne1 ⟨h, h2⟩
        have := List.length_pos.mpr this
        omega
      · have := List.length_pos.mpr h
        omega
    cases hD : mb1.drop_one_any with
    | none =>
      exfalso
      obtain ⟨hn1, _⟩ := drop_one_any_spec mb1
      obtain ⟨hh, hn⟩ := hn1.mp hD
      rw [hJH] at hh
      rw [hJN] at hn
      exact hne1 ⟨hh, hn⟩
    | some mb2 =>
      obtain ⟨_, hsome⟩ := drop_one_any_spec mb1
      obtain ⟨hd2, _, _, _, hlen2, hpref⟩ := hsome mb2 hD
      have hidx2 : idx < ({ mb2 with dropped_overflow :=
          (mb2.dropped_overflow + 1) % 4294967296 } : task_mailbox).topic_queues.length := by
        simp only
        omega
      obtain ⟨hok, herr, hesh⟩ := send_push_spec cfg
        { mb2 with dropped_overflow := (mb2.dropped_overflow + 1) % 4294967296 }
        idx msg (msg_is_urgent msg) mb.is_empty_unlocked hidx2
      have hsend : task_mailbox.send cfg mb msg =
          task_mailbox.send_push cfg
            { mb2 with dropped_overflow := (mb2.dropped_overflow + 1) % 4294967296 }
            idx msg (msg_is_urgent msg) mb.is_empty_unlocked := by
        unfold task_mailbox.send
        rw [hslot]
        dsimp only
        rw [if_pos hcond, if_pos ⟨(by rw [hpers]; simp : ¬msg_is_persistent msg = true),
          (by rw [hpol]; exact hdo : mb1.overflow_drop_oldest = true)⟩, hD]
      -- size of the post-drop state
      have htot2 : mb2.total_size + 1 = mb.total_size := by
        rw [total_size_eq, total_size_eq]
        rcases Classical.em (joinNormal mb1.topic_queues = []) with h | h
        · obtain ⟨hh, hn⟩ := hpref.2 h
          rw [hJN] at h
          have hJHne : joinHigh mb.topic_queues ≠ [] := fun hc => hne1 ⟨hc, h⟩
          have := List.length_pos.mpr hJHne
          rw [hh, hn, hJH, h]
          simp only [List.length_tail, List.length_nil]
          omega
        · obtain ⟨hn, hh⟩ := hpref.1 h
          rw [hJN] at h
          have := List.length_pos.mpr h
          rw [hh, hn, hJH, hJN]
          simp only [List.length_tail]
          omega
      rw [hsend]
      refine ⟨?_, ?_, ?_, ?_⟩
      · cases hr : (task_mailbox.send_push cfg
            { mb2 with dropped_overflow := (mb2.dropped_overflow + 1) % 4294967296 }
            idx msg (msg_is_urgent msg) mb.is_empty_unlocked).1 with
        | ok b =>
          obtain ⟨_, _, hdd, _⟩ := hok b hr
          rw [hdd]
          simp only
          rw [hd2, hdrop]
        | error e =>
          have he := hesh e hr
          subst he
          rw [herr hr]
          simp only
          rw [hd2, hdrop]
      · refine ⟨mb2, rfl, ?_, ?_⟩
        · intro hn
          rw [← hJN] at hn
          obtain ⟨ha, hb⟩ := hpref.1 hn
          rw [← hJN, ← hJH]
          exact ⟨ha, hb⟩
        · intro hn
          rw [← hJN] at hn
          obtain ⟨ha, hb⟩ := hpref.2 hn
          rw [← hJH]
          exact ⟨ha, hb⟩
      · intro b hb
        obtain ⟨hsz, hmem, _, _⟩ := hok b hb
        constructor
        · rw [hsz]
          exact htot2
        · exact List.mem_append.mpr hmem
      · intro herr2
        rw [herr herr2]
        exact htot2

/-- Claim C2, counterexample to the original wording: configuration with two
topic slots and per-topic capacities high=1, normal=1; the mailbox holds one
normal message on topic 1 and one high plus one normal message on topic 2
(total 3, depth limit 4, drop-oldest enabled). Sending an urgent,
non-persistent message to topic 2 finds the high sub-queue full, drops the
oldest normal message (topic 1) and increments dropped_overflow, but the
subsequent push still fails (both sub-queues of topic 2 remain full): send
returns out_of_memory, a queued message was destroyed, and the new message
was never enqueued — contradicting "only then is the new message pushed". -/
theorem C2_counterexample :
    msg_is_urgent ⟨⟨2, 0, 0, 0, 4, 1, 0, 9⟩, 99⟩ = true ∧
    msg_is_persistent ⟨⟨2, 0, 0, 0, 4, 1, 0, 9⟩, 99⟩ = false ∧
    (⟨0, false, 4, 0, 0, true, true,
      [⟨1, [], [⟨⟨1, 0, 0, 0, 0, 0, 0, 1⟩, 0⟩]⟩,
       ⟨2, [⟨⟨2, 0, 0, 0, 4, 0, 0, 2⟩, 0⟩],
        [⟨⟨2, 0, 0, 0, 0, 0, 0, 3⟩, 0⟩]⟩]⟩ : task_mailbox).total_size = 3 ∧
    (task_mailbox.send ⟨2, 1, 1⟩ ⟨0, false, 4, 0, 0, true, true,
      [⟨1, [], [⟨⟨1, 0, 0, 0, 0, 0, 0, 1⟩, 0⟩]⟩,
       ⟨2, [⟨⟨2, 0, 0, 0, 4, 0, 0, 2⟩, 0⟩],
        [⟨⟨2, 0, 0, 0, 0, 0, 0, 3⟩, 0⟩]⟩]⟩
      ⟨⟨2, 0, 0, 0, 4, 1, 0, 9⟩, 99⟩).1 = Except.error ErrorCode.out_of_memory ∧
    (task_mailbox.send ⟨2, 1, 1⟩ ⟨0, false, 4, 0, 0, true, true,
      [⟨1, [], [⟨⟨1, 0, 0, 0, 0, 0, 0, 1⟩, 0⟩]⟩,
       ⟨2, [⟨⟨2, 0, 0, 0, 4, 0, 0, 2⟩, 0⟩],
        [⟨⟨2, 0, 0, 0, 0, 0, 0, 3⟩, 0⟩]⟩]⟩
      ⟨⟨2, 0, 0, 0, 4, 1, 0, 9⟩, 99⟩).2.dropped_overflow = 1 ∧
    (task_mailbox.send ⟨2, 1, 1⟩ ⟨0, false, 4, 0, 0, true, true,
      [⟨1, [], [⟨⟨1, 0, 0, 0, 0, 0, 0, 1⟩, 0⟩]⟩,
       ⟨2, [⟨⟨2, 0, 0, 0, 4, 0, 0, 2⟩, 0⟩],
        [⟨⟨2, 0, 0, 0, 0, 0, 0, 3⟩, 0⟩]⟩]⟩
      ⟨⟨2, 0, 0, 0, 4, 1, 0, 9⟩, 99⟩).2.total_size = 2 ∧
    ¬ (⟨⟨2, 0, 0, 0, 4, 1, 0, 9⟩, 99⟩ : message) ∈
      joinHigh (task_mailbox.send ⟨2, 1, 1⟩ ⟨0, false, 4, 0, 0, true, true,
        [⟨1, [], [⟨⟨1, 0, 0, 0, 0, 0, 0, 1⟩, 0⟩]⟩,
         ⟨2, [⟨⟨2, 0, 0, 0, 4, 0, 0, 2⟩, 0⟩],
          [⟨⟨2, 0, 0, 0, 0, 0, 0, 3⟩, 0⟩]⟩]⟩
        ⟨⟨2, 0, 0, 0, 4, 1, 0, 9⟩, 99⟩).2.topic_queues ++
      joinNormal (task_mailbox.send ⟨2, 1, 1⟩ ⟨0, false, 4, 0, 0, true, true,
        [⟨1, [], [⟨⟨1, 0, 0, 0, 0, 0, 0, 1⟩, 0⟩]⟩,
         ⟨2, [⟨⟨2, 0, 0, 0, 4, 0, 0, 2⟩, 0⟩],
          [⟨⟨2, 0, 0, 0, 0, 0, 0, 3⟩, 0⟩]⟩]⟩
        ⟨⟨2, 0, 0, 0, 4, 1, 0, 9⟩, 99⟩).2.topic_queues := by
  refine ⟨by decide, by decide, by decide, rfl, by decide, by decide, by decide⟩

/-- Witness for C2: the amended theorem applied to the concrete overflow
scenario above (topic slot 2 found at index 1, high sub-queue full). -/
theorem C2_mailbox_overflow_amended_witness :
    (task_mailbox.send ⟨2, 1, 1⟩ ⟨0, false, 4, 0, 0, true, true,
      [⟨1, [], [⟨⟨1, 0, 0, 0, 0, 0, 0, 1⟩, 0⟩]⟩,
       ⟨2, [⟨⟨2, 0, 0, 0, 4, 0, 0, 2⟩, 0⟩],
        [⟨⟨2, 0, 0, 0, 0, 0, 0, 3⟩, 0⟩]⟩]⟩
      ⟨⟨2, 0, 0, 0, 4, 1, 0, 9⟩, 99⟩).2.dropped_overflow = (0 + 1) % 4294967296 := by
  have h := (C2_mailbox_overflow_amended ⟨2, 1, 1⟩
    ⟨0, false, 4, 0, 0, true, true,
      [⟨1, [], [⟨⟨1, 0, 0, 0, 0, 0, 0, 1⟩, 0⟩]⟩,
       ⟨2, [⟨⟨2, 0, 0, 0, 4, 0, 0, 2⟩, 0⟩],
        [⟨⟨2, 0, 0, 0, 0, 0, 0, 3⟩, 0⟩]⟩]⟩
    ⟨⟨2, 0, 0, 0, 4, 1, 0, 9⟩, 99⟩ 1
    ⟨0, false, 4, 0, 0, true, true,
      [⟨1, [], [⟨⟨1, 0, 0, 0, 0, 0, 0, 1⟩, 0⟩]⟩,
       ⟨2, [⟨⟨2, 0, 0, 0, 4, 0, 0, 2⟩, 0⟩],
        [⟨⟨2, 0, 0, 0, 0, 0, 0, 3⟩, 0⟩]⟩]⟩
    rfl (by decide)).2.2 (by decide) rfl (by decide)
  exact h.1

/-! ### The stamping prefix of publish only touches the sequence counter -/

theorem stamp_topics (now : Nat) (br : message_broker) (topic_id : Nat)
    (msg : message) (from_task : Nat) :
    (message_broker.stamp now br topic_id msg from_task).1.topics = br.topics := by
  unfold message_broker.stamp
  dsimp only
  split <;> split <;> rfl

theorem stamp_mailboxes (now : Nat) (br : message_broker) (topic_id : Nat)
    (msg : message) (from_task : Nat) :
    (message_broker.stamp now br topic_id msg from_task).1.mailboxes = br.mailboxes := by
  unfold message_broker.stamp
  dsimp only
  split <;> split <;> rfl

theorem stamp_sent_count (now : Nat) (br : message_broker) (topic_id : Nat)
    (msg : message) (from_task : Nat) :
    (message_broker.stamp now br topic_id msg from_task).1.sent_count = br.sent_count := by
  unfold message_broker.stamp
  dsimp only
  split <;> split <;> rfl

theorem stamp_dropped_count (now : Nat) (br : message_broker) (topic_id : Nat)
    (msg : message) (from_task : Nat) :
    (message_broker.stamp now br topic_id msg from_task).1.dropped_count =
      br.dropped_count := by
  unfold message_broker.stamp
  dsimp only
  split <;> split <;> rfl

/-- The delivery loop adds one to the success counter (mod 2^32) per
accepting mailbox and ors the any-success flag with "some send succeeded". -/
theorem deliver_spec (cfg : mailbox_config) (msg : message) (subs : List Nat) :
    ∀ (mbs : List task_mailbox) (s d : Nat) (any : Bool), s < 4294967296 →
      ∃ k, k ≤ subs.length ∧
        (deliver cfg subs mbs s d any msg).2.1 = (s + k) % 4294967296 ∧
        (deliver cfg subs mbs s d any msg).2.2.2 = (any || decide (0 < k)) := by
  induction subs with
  | nil =>
    intro mbs s d any hs
    refine ⟨0, Nat.zero_le _, ?_, ?_⟩
    · simp only [deliver, Nat.add_zero]
      exact (Nat.mod_eq_of_lt hs).symm
    · simp only [deliver]
      simp
  | cons sub rest ih =>
    intro mbs s d any hs
    cases hf : find_mailbox_idx mbs sub with
    | none =>
      have hstep : deliver cfg (sub :: rest) mbs s d any msg =
          deliver cfg rest mbs s d any msg := by
        simp only [deliver, hf]
      obtain ⟨k, hk, h1, h2⟩ := ih mbs s d any hs
      refine ⟨k, ?_, ?_, ?_⟩
      · simp only [List.length_cons]
        omega
      · rw [hstep]
        exact h1
      · rw [hstep]
        exact h2
    | some i =>
      cases hr : (task_mailbox.send cfg (mbs.getD i default_mailbox) msg).1 with
      | ok u =>
        have hstep : deliver cfg (sub :: rest) mbs s d any msg =
            deliver cfg rest
              (mbs.set i (task_mailbox.send cfg (mbs.getD i default_mailbox) msg).2)
              ((s + 1) % 4294967296) d true msg := by
          simp only [deliver, hf, hr]
        obtain ⟨k, hk, h1, h2⟩ := ih
          (mbs.set i (task_mailbox.send cfg (mbs.getD i default_mailbox) msg).2)
          ((s + 1) % 4294967296) d true (Nat.mod_lt _ (by omega))
        refine ⟨k + 1, ?_, ?_, ?_⟩
        · simp only [List.length_cons]
          omega
        · rw [hstep, h1, Nat.mod_add_mod]
          congr 1
          omega
        · rw [hstep, h2]
          have hp : (0 : Nat) < k + 1 := Nat.succ_pos k
          simp [hp]
      | error e =>
        have hstep : deliver cfg (sub :: rest) mbs s d any msg =
            deliver cfg rest
              (mbs.set i (task_mailbox.send cfg (mbs.getD i default_mailbox) msg).2)
              s ((d + 1) % 4294967296) any msg := by
          simp only [deliver, hf, hr]
        obtain ⟨k, hk, h1, h2⟩ := ih
          (mbs.set i (task_mailbox.send cfg (mbs.getD i default_mailbox) msg).2)
          s ((d + 1) % 4294967296) any hs
        refine ⟨k, ?_, ?_, ?_⟩
        · simp only [List.length_cons]
          omega
        · rw [hstep]
          exact h1
        · rw [hstep]
          exact h2

/-- Claim C9: publish returns not_found exactly when the topic is unknown or
has no subscribers; with a known, subscribed topic the result is ok or
out_of_memory, and (when the counters cannot wrap) ok holds exactly when at
least one subscriber mailbox accepted the message, observed as sent_count
increasing by the number k > 0 of accepting subscribers. -/
theorem C9_publish_routing (cfg : mailbox_config) (now : Nat) (br : message_broker)
    (topic_id : Nat) (msg : message) (from_task : Nat)
    (hs : br.sent_count < 4294967296) :
    ((message_broker.publish cfg now br topic_id msg from_task).1 =
        Except.error ErrorCode.not_found ↔
      (find_topic br.topics topic_id = none ∨
        ∃ t, find_topic br.topics topic_id = some t ∧ t.subscriber_ids = [])) ∧
    (∀ t, find_topic br.topics topic_id = some t → t.subscriber_ids ≠ [] →
      (br.sent_count + t.subscriber_ids.length < 4294967296 →
        ((message_broker.publish cfg now br topic_id msg from_task).1 =
            Except.ok () ↔
          ∃ k, 0 < k ∧ k ≤ t.subscriber_ids.length ∧
            (message_broker.publish cfg now br topic_id msg from_task).2.1.sent_count =
              br.sent_count + k)) ∧
      ((message_broker.publish cfg now br topic_id msg from_task).1 = Except.ok () ∨
        (message_broker.publish cfg now br topic_id msg from_task).1 =
          Except.error ErrorCode.out_of_memory)) := by
  cases hf : find_topic br.topics topic_id with
  | none =>
    have hf1 : find_topic
        (message_broker.stamp now br topic_id msg from_task).1.topics topic_id = none := by
      rw [stamp_topics]
      exact hf
    have heq : (message_broker.publish cfg now br topic_id msg from_task).1 =
        Except.error ErrorCode.not_found := by
      unfold message_broker.publish
      dsimp only
      rw [hf1]
    refine ⟨⟨fun _ => Or.inl rfl, fun _ => heq⟩, ?_⟩
    intro t ht hne
    exact Option.noConfusion ht
  | some t0 =>
    have hf1 : find_topic
        (message_broker.stamp now br topic_id msg from_task).1.topics topic_id =
        some t0 := by
      rw [stamp_topics]
      exact hf
    cases he : t0.subscriber_ids.isEmpty with
    | true =>
      have hnil : t0.subscriber_ids = [] := by
        cases hl : t0.subscriber_ids with
        | nil => rfl
        | cons a l =>
          rw [hl] at he
          simp at he
      have heq : (message_broker.publish cfg now br topic_id msg from_task).1 =
          Except.error ErrorCode.not_found := by
        unfold message_broker.publish
        dsimp only
        rw [hf1]
        dsimp only
        rw [if_pos he]
      refine ⟨⟨fun _ => Or.inr ⟨t0, rfl, hnil⟩, fun _ => heq⟩, ?_⟩
      intro t ht hne
      have ht' := Option.some.inj ht
      subst ht'
      exact absurd hnil hne
    | false =>
      have hne0 : t0.subscriber_ids ≠ [] := by
        intro hc
        rw [hc] at he
        simp at he
      have heq : message_broker.publish cfg now br topic_id msg from_task =
          (if (deliver cfg t0.subscriber_ids
                (message_broker.stamp now br topic_id msg from_task).1.mailboxes
                (message_broker.stamp now br topic_id msg from_task).1.sent_count
                (message_broker.stamp now br topic_id msg from_task).1.dropped_count
                false (message_broker.stamp now br topic_id msg from_task).2).2.2.2 = true
          then
            (Except.ok (),
              { (message_broker.stamp now br topic_id msg from_task).1 with
                mailboxes := (deliver cfg t0.subscriber_ids
                  (message_broker.stamp now br topic_id msg from_task).1.mailboxes
                  (message_broker.stamp now br topic_id msg from_task).1.sent_count
                  (message_broker.stamp now br topic_id msg from_task).1.dropped_count
                  false (message_broker.stamp now br topic_id msg from_task).2).1
                sent_count := (deliver cfg t0.subscriber_ids
                  (message_broker.stamp now br topic_id msg from_task).1.mailboxes
                  (message_broker.stamp now br topic_id msg from_task).1.sent_count
                  (message_broker.stamp now br topic_id msg from_task).1.dropped_count
                  false (message_broker.stamp now br topic_id msg from_task).2).2.1
                dropped_count := (deliver cfg t0.subscriber_ids
                  (message_broker.stamp now br topic_id msg from_task).1.mailboxes
                  (message_broker.stamp now br topic_id msg from_task).1.sent_count
                  (message_broker.stamp now br topic_id msg from_task).1.dropped_count
                  false (message_broker.stamp now br topic_id msg from_task).2).2.2.1 },
              (message_broker.stamp now br topic_id msg from_task).2)
          else
            (Except.error ErrorCode.out_of_memory,
              { (message_broker.stamp now br topic_id msg from_task).1 with
                mailboxes := (deliver cfg t0.subscriber_ids
                  (message_broker.stamp now br topic_id msg from_task).1.mailboxes
                  (message_broker.stamp now br topic_id msg from_task).1.sent_count
                  (message_broker.stamp now br topic_id msg from_task).1.dropped_count
                  false (message_broker.stamp now br topic_id msg from_task).2).1
                sent_count := (deliver cfg t0.subscriber_ids
                  (message_broker.stamp now br topic_id msg from_task).1.mailboxes
                  (message_broker.stamp now br topic_id msg from_task).1.sent_count
                  (message_broker.stamp now br topic_id msg from_task).1.dropped_count
                  false (message_broker.stamp now br topic_id msg from_task).2).2.1
                dropped_count := (deliver cfg t0.subscriber_ids
                  (message_broker.stamp now br topic_id msg from_task).1.mailboxes
                  (message_broker.stamp now br topic_id msg from_task).1.sent_count
                  (message_broker.stamp now br topic_id msg from_task).1.dropped_count
                  false (message_broker.stamp now br topic_id msg from_task).2).2.2.1 },
              (message_broker.stamp now br topic_id msg from_task).2)) := by
        unfold message_broker.publish
        dsimp only
        rw [hf1]
        dsimp only
        rw [if_neg (by simp [he])]
      obtain ⟨k, hk, hsent, hany⟩ := deliver_spec cfg
        (message_broker.stamp now br topic_id msg from_task).2 t0.subscriber_ids
        (message_broker.stamp now br topic_id msg from_task).1.mailboxes
        (message_broker.stamp now br topic_id msg from_task).1.sent_count
        (message_broker.stamp now br topic_id msg from_task).1.dropped_count
        false (by rw [stamp_sent_count]; exact hs)
      have hsc := stamp_sent_count now br topic_id msg from_task
      cases hd : (deliver cfg t0.subscriber_ids
          (message_broker.stamp now br topic_id msg from_task).1.mailboxes
          (message_broker.stamp now br topic_id msg from_task).1.sent_count
          (message_broker.stamp now br topic_id msg from_task).1.dropped_count
          false (message_broker.stamp now br topic_id msg from_task).2).2.2.2 with
      | false =>
        have h1 : (message_broker.publish cfg now br topic_id msg from_task).1 =
            Except.error ErrorCode.out_of_memory := by
          rw [heq, if_neg (by simp [hd])]
        have h2 : (message_broker.publish cfg now br topic_id msg from_task).2.1.sent_count =
            (deliver cfg t0.subscriber_ids
              (message_broker.stamp now br topic_id msg from_task).1.mailboxes
              (message_broker.stamp now br topic_id msg from_task).1.sent_count
              (message_broker.stamp now br topic_id msg from_task).1.dropped_count
              false (message_broker.stamp now br topic_id msg from_task).2).2.1 := by
          rw [heq, if_neg (by simp [hd])]
        have hk0 : k = 0 := by
          rw [hd] at hany
          simp at hany
          omega
        refine ⟨⟨fun h => absurd h (by rw [h1]; simp), ?_⟩, ?_⟩
        · intro h
          rcases h with hnone | ⟨t, ht, hemp⟩
          · exact Option.noConfusion hnone
          · have ht' := Option.some.inj ht
            subst ht'
            exact absurd hemp hne0
        · intro t ht hne
          have ht' := Option.some.inj ht
          subst ht'
          refine ⟨?_, Or.inr h1⟩
          intro hlen
          constructor
          · intro h
            rw [h1] at h
            exact Except.noConfusion h
          · rintro ⟨k2, hk2pos, hk2le, hk2⟩
            rw [h2, hsent, hsc, hk0, Nat.add_zero, Nat.mod_eq_of_lt hs] at hk2
            omega
      | true =>
        have h1 : (message_broker.publish cfg now br topic_id msg from_task).1 =
            Except.ok () := by
          rw [heq, if_pos hd]
        have h2 : (message_broker.publish cfg now br topic_id msg from_task).2.1.sent_count =
            (deliver cfg t0.subscriber_ids
              (message_broker.stamp now br topic_id msg from_task).1.mailboxes
              (message_broker.stamp now br topic_id msg from_task).1.sent_count
              (message_broker.stamp now br topic_id msg from_task).1.dropped_count
              false (message_broker.stamp now br topic_id msg from_task).2).2.1 := by
          rw [heq, if_pos hd]
        have hkpos : 0 < k := by
          rw [hd] at hany
          simp at hany
          exact hany
        refine ⟨⟨fun h => absurd h (by rw [h1]; simp), ?_⟩, ?_⟩
        · intro h
          rcases h with hnone | ⟨t, ht, hemp⟩
          · exact Option.noConfusion hnone
          · have ht' := Option.some.inj ht
            subst ht'
            exact absurd hemp hne0
        · intro t ht hne
          have ht' := Option.some.inj ht
          subst ht'
          refine ⟨?_, Or.inl h1⟩
          intro hlen
          refine ⟨fun _ => ⟨k, hkpos, hk, ?_⟩, fun _ => h1⟩
          rw [h2, hsent, hsc, Nat.mod_eq_of_lt (by omega)]

/-- Witness for C9: a broker with one registered topic (id 5, one subscriber,
task 0 with an empty mailbox) accepts a publish: the result is ok. -/
theorem C9_publish_routing_witness :
    (message_broker.publish ⟨1, 1, 3⟩ 0
      ⟨[⟨0, true, 4, 0, 0, true, true, []⟩], [⟨5, 3, [0]⟩], 0, 0, 0, 1, true⟩
      5 ⟨⟨0, 0, 0, 0, 0, 7, 0, 9⟩, 42⟩ 0).1 = Except.ok () := by
  have h := C9_publish_routing ⟨1, 1, 3⟩ 0
    ⟨[⟨0, true, 4, 0, 0, true, true, []⟩], [⟨5, 3, [0]⟩], 0, 0, 0, 1, true⟩
    5 ⟨⟨0, 0, 0, 0, 0, 7, 0, 9⟩, 42⟩ 0 (by decide)
  exact ((h.2 ⟨5, 3, [0]⟩ rfl (by decide)).1 (by decide)).mpr
    ⟨1, by decide, by decide, by decide⟩

/-! ### Message provenance: everything queued after a publish was already
queued before or is the stamped message -/

theorem getD_mem_of_lt {α : Type} (l : List α) (i : Nat) (d : α) (h : i < l.length) :
    l.getD i d ∈ l := by
  induction l generalizing i with
  | nil => simp at h
  | cons a t ih =>
    cases i with
    | zero => simp
    | succ n =>
      simp only [List.getD_cons_succ]
      exact List.mem_cons_of_mem _ (ih n (by simpa using h))

theorem find_mailbox_idx_lt (mbs : List task_mailbox) (t i : Nat)
    (h : find_mailbox_idx mbs t = some i) : i < mbs.length := by
  unfold find_mailbox_idx at h
  by_cases h1 : t < mbs.length
  · rw [if_pos h1] at h
    by_cases h2 : (mbs.getD t default_mailbox).task_id = t
    · rw [if_pos h2] at h
      have := Option.some.inj h
      omega
    · rw [if_neg h2] at h
      exact Option.noConfusion h
  · rw [if_neg h1] at h
    exact Option.noConfusion h

/-- Any message in the mailbox after send() was there before, or is the
message being sent. -/
theorem send_mem (cfg : mailbox_config) (mb : task_mailbox) (msg : message) :
    ∀ x, (x ∈ joinHigh (task_mailbox.send cfg mb msg).2.topic_queues ∨
        x ∈ joinNormal (task_mailbox.send cfg mb msg).2.topic_queues) →
      (x ∈ joinHigh mb.topic_queues ∨ x ∈ joinNormal mb.topic_queues) ∨ x = msg := by
  cases hg : mb.get_or_create_topic cfg msg.header.type_ with
  | none =>
    have hs : (task_mailbox.send cfg mb msg).2 = mb := by
      unfold task_mailbox.send
      rw [hg]
    intro x hx
    rw [hs] at hx
    exact Or.inl hx
  | some p =>
    obtain ⟨idx, mb1⟩ := p
    obtain ⟨hJH, hJN, hidx, hdep, hdrop, hpol, hnot, htot⟩ :=
      get_or_create_topic_spec cfg mb msg.header.type_ idx mb1 hg
    have hmb1 : ∀ y, (y ∈ joinHigh mb1.topic_queues ∨ y ∈ joinNormal mb1.topic_queues) →
        y ∈ joinHigh mb.topic_queues ∨ y ∈ joinNormal mb.topic_queues := by
      intro y hy
      rw [hJH, hJN] at hy
      exact hy
    intro x hx
    by_cases hC : ((if msg_is_urgent msg = true then
          decide (cfg.high_capacity ≤
            (mb1.topic_queues.getD idx task_mailbox.default_entry).high_queue.length)
        else
          decide (cfg.normal_capacity ≤
            (mb1.topic_queues.getD idx task_mailbox.default_entry).normal_queue.length)) ||
        decide (mb.depth_limit ≤ mb.total_size)) = true
    · by_cases hP : ¬msg_is_persistent msg = true ∧ mb1.overflow_drop_oldest = true
      · cases hD : mb1.drop_one_any with
        | none =>
          have hs : (task_mailbox.send cfg mb msg).2 = mb1 := by
            unfold task_mailbox.send
            rw [hg]
            dsimp only
            rw [if_pos hC, if_pos hP, hD]
          rw [hs] at hx
          exact Or.inl (hmb1 x hx)
        | some mb2 =>
          have hs : task_mailbox.send cfg mb msg =
              task_mailbox.send_push cfg
                { mb2 with dropped_overflow := (mb2.dropped_overflow + 1) % 4294967296 }
                idx msg (msg_is_urgent msg) mb.is_empty_unlocked := by
            unfold task_mailbox.send
            rw [hg]
            dsimp only
            rw [if_pos hC, if_pos hP, hD]
          obtain ⟨_, _, _, _, hlen2, hpref⟩ := (drop_one_any_spec mb1).2 mb2 hD
          have hidx2 : idx < ({ mb2 with dropped_overflow :=
              (mb2.dropped_overflow + 1) % 4294967296 } : task_mailbox).topic_queues.length := by
            simp only
            omega
          obtain ⟨hok, herr, hesh⟩ := send_push_spec cfg
            { mb2 with dropped_overflow := (mb2.dropped_overflow + 1) % 4294967296 }
            idx msg (msg_is_urgent msg) mb.is_empty_unlocked hidx2
          have hmb2 : ∀ y,
              (y ∈ joinHigh mb2.topic_queues ∨ y ∈ joinNormal mb2.topic_queues) →
              y ∈ joinHigh mb1.topic_queues ∨ y ∈ joinNormal mb1.topic_queues := by
            intro y hy
            rcases Classical.em (joinNormal mb1.topic_queues = []) with h | h
            · obtain ⟨hh, hn⟩ := hpref.2 h
              rcases hy with hy | hy
              · rw [hh] at hy
                exact Or.inl ((List.tail_sublist _).subset hy)
              · rw [hn] at hy
                simp at hy
            · obtain ⟨hn, hh⟩ := hpref.1 h
              rcases hy with hy | hy
              · rw [hh] at hy
                exact Or.inl hy
              · rw [hn] at hy
                exact Or.inr ((List.tail_sublist _).subset hy)
          rw [hs] at hx
          cases hr : (task_mailbox.send_push cfg
              { mb2 with dropped_overflow := (mb2.dropped_overflow + 1) % 4294967296 }
              idx msg (msg_is_urgent msg) mb.is_empty_unlocked).1 with
          | ok b =>
            obtain ⟨_, _, _, htrans⟩ := hok b hr
            rcases htrans x hx with h2 | h2
            · exact Or.inl (hmb1 x (hmb2 x h2))
            · exact Or.inr h2
          | error e =>
            have he := hesh e hr
            subst he
            rw [herr hr] at hx
            exact Or.inl (hmb1 x (hmb2 x hx))
      · have hs : (task_mailbox.send cfg mb msg).2 = mb1 := by
          unfold task_mailbox.send
          rw [hg]
          dsimp only
          rw [if_pos hC, if_neg hP]
        rw [hs] at hx
        exact Or.inl (hmb1 x hx)
    · have hs : task_mailbox.send cfg mb msg =
          task_mailbox.send_push cfg mb1 idx msg (msg_is_urgent msg)
            mb.is_empty_unlocked := by
        unfold task_mailbox.send
        rw [hg]
        dsimp only
        rw [if_neg hC]
      obtain ⟨hok, herr, hesh⟩ := send_push_spec cfg mb1 idx msg (msg_is_urgent msg)
        mb.is_empty_unlocked hidx
      rw [hs] at hx
      cases hr : (task_mailbox.send_push cfg mb1 idx msg (msg_is_urgent msg)
          mb.is_empty_unlocked).1 with
      | ok b =>
        obtain ⟨_, _, _, htrans⟩ := hok b hr
        rcases htrans x hx with h2 | h2
        · exact Or.inl (hmb1 x h2)
        · exact Or.inr h2
      | error e =>
        have he := hesh e hr
        subst he
        rw [herr hr] at hx
        exact Or.inl (hmb1 x hx)

/-- Any message in any mailbox after the delivery loop was in some mailbox
before, or is the message being fanned out. -/
theorem deliver_mem (cfg : mailbox_config) (msg : message) (subs : List Nat) :
    ∀ (mbs : List task_mailbox) (s d : Nat) (any : Bool) (mb' : task_mailbox),
      mb' ∈ (deliver cfg subs mbs s d any msg).1 →
      ∀ x, (x ∈ joinHigh mb'.topic_queues ∨ x ∈ joinNormal mb'.topic_queues) →
        (∃ mb ∈ mbs, x ∈ joinHigh mb.topic_queues ∨ x ∈ joinNormal mb.topic_queues) ∨
        x = msg := by
  induction subs with
  | nil =>
    intro mbs s d any mb' hmb' x hx
    simp only [deliver] at hmb'
    exact Or.inl ⟨mb', hmb', hx⟩
  | cons sub rest ih =>
    intro mbs s d any mb' hmb' x hx
    cases hf : find_mailbox_idx mbs sub with
    | none =>
      have hstep : deliver cfg (sub :: rest) mbs s d any msg =
          deliver cfg rest mbs s d any msg := by
        simp only [deliver, hf]
      rw [hstep] at hmb'
      exact ih mbs s d any mb' hmb' x hx
    | some i =>
      have hi : i < mbs.length := find_mailbox_idx_lt mbs sub i hf
      cases hr : (task_mailbox.send cfg (mbs.getD i default_mailbox) msg).1 with
      | ok u =>
        have hstep : deliver cfg (sub :: rest) mbs s d any msg =
            deliver cfg rest
              (mbs.set i (task_mailbox.send cfg (mbs.getD i default_mailbox) msg).2)
              ((s + 1) % 4294967296) d true msg := by
          simp only [deliver, hf, hr]
        rw [hstep] at hmb'
        rcases ih _ _ _ _ mb' hmb' x hx with ⟨mb0, hmb0, hx0⟩ | hx0
        · rcases List.mem_or_eq_of_mem_set hmb0 with h | h
          · exact Or.inl ⟨mb0, h, hx0⟩
          · subst h
            rcases send_mem cfg (mbs.getD i default_mailbox) msg x hx0 with h2 | h2
            · exact Or.inl ⟨mbs.getD i default_mailbox, getD_mem_of_lt _ _ _ hi, h2⟩
            · exact Or.inr h2
        · exact Or.inr hx0
      | error e =>
        have hstep : deliver cfg (sub :: rest) mbs s d any msg =
            deliver cfg rest
              (mbs.set i (task_mailbox.send cfg (mbs.getD i default_mailbox) msg).2)
              s ((d + 1) % 4294967296) any msg := by
          simp only [deliver, hf, hr]
        rw [hstep] at hmb'
        rcases ih _ _ _ _ mb' hmb' x hx with ⟨mb0, hmb0, hx0⟩ | hx0
        · rcases List.mem_or_eq_of_mem_set hmb0 with h | h
          · exact Or.inl ⟨mb0, h, hx0⟩
          · subst h
            rcases send_mem cfg (mbs.getD i default_mailbox) msg x hx0 with h2 | h2
            · exact Or.inl ⟨mbs.getD i default_mailbox, getD_mem_of_lt _ _ _ hi, h2⟩
            · exact Or.inr h2
        · exact Or.inr hx0

/-- Any message in any mailbox after publish() was in some mailbox before,
or is the stamped message that publish fanned out. -/
theorem publish_mem (cfg : mailbox_config) (now : Nat) (br : message_broker)
    (topic_id : Nat) (msg : message) (from_task : Nat) :
    ∀ mb' ∈ (message_broker.publish cfg now br topic_id msg from_task).2.1.mailboxes,
      ∀ x, (x ∈ joinHigh mb'.topic_queues ∨ x ∈ joinNormal mb'.topic_queues) →
        (∃ mb ∈ br.mailboxes,
          x ∈ joinHigh mb.topic_queues ∨ x ∈ joinNormal mb.topic_queues) ∨
        x = (message_broker.stamp now br topic_id msg from_task).2 := by
  cases hf : find_topic
      (message_broker.stamp now br topic_id msg from_task).1.topics topic_id with
  | none =>
    have hs : (message_broker.publish cfg now br topic_id msg from_task).2.1 =
        (message_broker.stamp now br topic_id msg from_task).1 := by
      unfold message_broker.publish
      dsimp only
      rw [hf]
    intro mb' hmb' x hx
    rw [hs, stamp_mailboxes] at hmb'
    exact Or.inl ⟨mb', hmb', hx⟩
  | some t =>
    cases he : t.subscriber_ids.isEmpty with
    | true =>
      have hs : (message_broker.publish cfg now br topic_id msg from_task).2.1 =
          (message_broker.stamp now br topic_id msg from_task).1 := by
        unfold message_broker.publish
        dsimp only
        rw [hf]
        dsimp only
        rw [if_pos he]
      intro mb' hmb' x hx
      rw [hs, stamp_mailboxes] at hmb'
      exact Or.inl ⟨mb', hmb', hx⟩
    | false =>
      have hs : (message_broker.publish cfg now br topic_id msg from_task).2.1.mailboxes =
          (deliver cfg t.subscriber_ids
            (message_broker.stamp now br topic_id msg from_task).1.mailboxes
            (message_broker.stamp now br topic_id msg from_task).1.sent_count
            (message_broker.stamp now br topic_id msg from_task).1.dropped_count
            false (message_broker.stamp now br topic_id msg from_task).2).1 := by
        unfold message_broker.publish
        dsimp only
        rw [hf]
        dsimp only
        rw [if_neg (by simp [he])]
        split <;> rfl
      intro mb' hmb' x hx
      rw [hs] at hmb'
      rcases deliver_mem cfg (message_broker.stamp now br topic_id msg from_task).2
          t.subscriber_ids
          (message_broker.stamp now br topic_id msg from_task).1.mailboxes
          (message_broker.stamp now br topic_id msg from_task).1.sent_count
          (message_broker.stamp now br topic_id msg from_task).1.dropped_count
          false mb' hmb' x hx with ⟨mb0, hmb0, hx0⟩ | hx0
      · rw [stamp_mailboxes] at hmb0
        exact Or.inl ⟨mb0, hmb0, hx0⟩
      · exact Or.inr hx0

/-- A message returned by receive() was queued in the mailbox. -/
theorem receive_mem (mb : task_mailbox) (m : message)
    (h : (task_mailbox.receive mb).1 = Except.ok m) :
    m ∈ joinHigh mb.topic_queues ∨ m ∈ joinNormal mb.topic_queues := by
  unfold task_mailbox.receive at h
  by_cases he : mb.is_empty_unlocked = true
  · rw [if_pos he] at h
    exact Except.noConfusion h
  · rw [if_neg he] at h
    cases hH : popFirstHigh mb.topic_queues with
    | some p =>
      obtain ⟨m0, tqs⟩ := p
      rw [hH] at h
      dsimp only at h
      have hm := Except.ok.inj h
      subst hm
      obtain ⟨hj, _, _⟩ := popFirstHigh_spec mb.topic_queues m0 tqs hH
      left
      rw [hj]
      exact List.mem_cons_self _ _
    | none =>
      rw [hH] at h
      cases hN : popFirstNormal mb.topic_queues with
      | some p =>
        obtain ⟨m0, tqs⟩ := p
        rw [hN] at h
        dsimp only at h
        have hm := Except.ok.inj h
        subst hm
        obtain ⟨hj, _, _⟩ := popFirstNormal_spec mb.topic_queues m0 tqs hN
        right
        rw [hj]
        exact List.mem_cons_self _ _
      | none =>
        rw [hN] at h
        exact Except.noConfusion h

/-- A message returned by try_receive() was queued in one of the broker's
mailboxes. -/
theorem try_receive_mem (br : message_broker) (task_id : Nat) (m : message)
    (h : (message_broker.try_receive br task_id).1 = Except.ok m) :
    ∃ mb ∈ br.mailboxes, m ∈ joinHigh mb.topic_queues ∨ m ∈ joinNormal mb.topic_queues := by
  unfold message_broker.try_receive at h
  cases hf : find_mailbox_idx br.mailboxes task_id with
  | none =>
    rw [hf] at h
    exact Except.noConfusion h
  | some i =>
    rw [hf] at h
    dsimp only at h
    have hi : i < br.mailboxes.length := find_mailbox_idx_lt _ _ _ hf
    cases hr : (task_mailbox.receive (br.mailboxes.getD i default_mailbox)).1 with
    | ok m0 =>
      rw [hr] at h
      dsimp only at h
      have hm := Except.ok.inj h
      subst hm
      exact ⟨br.mailboxes.getD i default_mailbox, getD_mem_of_lt _ _ _ hi,
        receive_mem _ _ hr⟩
    | error e =>
      rw [hr] at h
      exact Except.noConfusion h

/-- The sequence number publish stamps: the broker counter when the caller
left it zero, the caller's value otherwise. -/
theorem stamp_seq (now : Nat) (br : message_broker) (topic_id : Nat)
    (msg : message) (from_task : Nat) :
    (message_broker.stamp now br topic_id msg from_task).2.header.sequence_number =
      if msg.header.sequence_number = 0 then br.sequence_ctr
      else msg.header.sequence_number := by
  by_cases hz : msg.header.sequence_number = 0 <;>
    simp [message_broker.stamp, hz, apply_ite message_header.sequence_number]

/-- Claim C1, counterexample to the original wording: on a freshly
initialised broker the private counter is 0, so the first publish of a
message whose caller left sequence_number == 0 stamps sequence 0 (the
counter is assigned before being incremented), and the subscriber receives
a message with header.sequence_number = 0. -/
theorem C1_counterexample :
    (message_broker.try_receive
      (message_broker.publish ⟨1, 1, 3⟩ 1
        ⟨[⟨0, true, 4, 0, 0, true, true, []⟩], [⟨7, 3, [0]⟩], 0, 0, 0, 0, true⟩
        7 ⟨⟨7, 0, 0, 0, 0, 5, 0, 0⟩, 11⟩ 0).2.1 0).1 =
      Except.ok ⟨⟨7, 0, 0, 0, 0, 5, 0, 0⟩, 11⟩ ∧
    (⟨⟨7, 0, 0, 0, 0, 5, 0, 0⟩, 11⟩ : message).header.sequence_number = 0 :=
  ⟨rfl, rfl⟩

/-- Claim C1 (amended): provided every message already queued in the broker
has a nonzero sequence number and the publish cannot stamp zero (the caller
supplied a nonzero sequence, or the broker counter is nonzero — the counter
is 0 exactly on a fresh broker, where the first zero-sequence publish is
delivered with sequence 0), every message received after the publish has a
nonzero sequence number. -/
theorem C1_sequence_amended (cfg : mailbox_config) (now : Nat) (br : message_broker)
    (topic_id : Nat) (msg : message) (from_task task_id : Nat) (m : message)
    (hold : ∀ mb ∈ br.mailboxes, ∀ x,
      (x ∈ joinHigh mb.topic_queues ∨ x ∈ joinNormal mb.topic_queues) →
      x.header.sequence_number ≠ 0)
    (hfresh : msg.header.sequence_number ≠ 0 ∨ br.sequence_ctr ≠ 0)
    (hrec : (message_broker.try_receive
        (message_broker.publish cfg now br topic_id msg from_task).2.1 task_id).1 =
      Except.ok m) :
    m.header.sequence_number ≠ 0 := by
  obtain ⟨mb, hmb, hx⟩ := try_receive_mem _ task_id m hrec
  rcases publish_mem cfg now br topic_id msg from_task mb hmb m hx with
    ⟨mb0, hmb0, hx0⟩ | hx0
  · exact hold mb0 hmb0 m hx0
  · rw [hx0, stamp_seq]
    split
    · rcases hfresh with h | h
      · exact absurd ‹_› h
      · exact h
    · exact ‹_›

/-- Witness for C1: a broker whose counter has advanced to 1 delivers the
zero-sequence publish with sequence 1, which is nonzero as the amended
theorem states. -/
theorem C1_sequence_amended_witness :
    (message_broker.try_receive
      (message_broker.publish ⟨1, 1, 3⟩ 1
        ⟨[⟨0, true, 4, 0, 0, true, true, []⟩], [⟨7, 3, [0]⟩], 0, 0, 0, 1, true⟩
        7 ⟨⟨7, 0, 0, 0, 0, 5, 0, 0⟩, 11⟩ 0).2.1 0).1 =
      Except.ok ⟨⟨7, 0, 0, 0, 0, 5, 0, 1⟩, 11⟩ ∧
    (⟨⟨7, 0, 0, 0, 0, 5, 0, 1⟩, 11⟩ : message).header.sequence_number ≠ 0 := by
  refine ⟨rfl, ?_⟩
  exact C1_sequence_amended ⟨1, 1, 3⟩ 1
    ⟨[⟨0, true, 4, 0, 0, true, true, []⟩], [⟨7, 3, [0]⟩], 0, 0, 0, 1, true⟩
    7 ⟨⟨7, 0, 0, 0, 0, 5, 0, 0⟩, 11⟩ 0 0 ⟨⟨7, 0, 0, 0, 0, 5, 0, 1⟩, 11⟩
    (by
      intro mb hmb x hx
      simp at hmb
      subst hmb
      simp [joinHigh, joinNormal] at hx)
    (Or.inr (by decide))
    rfl

end EmCore
